import Mathlib

/-!
# Verification of the Data Transformation Graph (DTG) core

A shallow embedding of `crates/constellation-core/src/models/dtg.rs`:
the DTG data model (nodes, edges, graph, provenance ledger), its mutation
API, the DFS acyclicity check, and the serde wire format, together with
proofs of the specified properties.

Conventions of the embedding:
* `uuid::Uuid` values are modelled as natural numbers (`Uuid := Nat`);
  `Uuid::new_v4()` is nondeterministic in the source, so constructors take
  the generated id as an explicit parameter.
* `chrono::DateTime<chrono::Utc>` values are modelled as UTC civil
  timestamps (`UtcTime`); `Utc::now()` is likewise passed explicitly.
* `std::collections::HashMap` is modelled as an association list with
  replace-or-append insertion; `serde_json::Value` is modelled by the
  `Json` type below.
* `f64` metric scores are modelled as rationals.
-/

/-- Model of `uuid::Uuid` (a 128-bit value; the bound is carried as a
hypothesis where the wire format needs it). -/
abbrev Uuid := Nat

/-- Modelled from the spec: `chrono::DateTime<chrono::Utc>` timestamps,
which "serialize as RFC3339 UTC strings"; modelled as a UTC civil
timestamp at whole-second precision. -/
structure UtcTime where
  year : Nat
  month : Nat
  day : Nat
  hour : Nat
  minute : Nat
  second : Nat
deriving DecidableEq, Repr

/-- Linearisation of a civil timestamp, used to compare instants
(lexicographic field order, as for UTC instants). -/
def UtcTime.key (t : UtcTime) : Nat :=
  ((((t.year * 13 + t.month) * 32 + t.day) * 24 + t.hour) * 60 + t.minute) * 60 + t.second

/-- Temporal order on modelled timestamps. -/
def UtcTime.le (a b : UtcTime) : Prop := a.key ≤ b.key

instance (a b : UtcTime) : Decidable (a.le b) := Nat.decLe _ _

/-- Model of `serde_json::Value`. -/
inductive Json where
  | null : Json
  | bool (b : Bool) : Json
  | num (q : ℚ) : Json
  | str (s : String) : Json
  | arr (elems : List Json) : Json
  | obj (fields : List (String × Json)) : Json

/-- `DtgDataRef` (dtg.rs): reference to data in the DTG. -/
structure DtgDataRef where
  id : Uuid
  data_type : String
  schema : Option String
  size_bytes : Option Nat
  content_hash : Option String
  storage_ref : Option String
deriving DecidableEq, Repr

/-- `DtgNodeStatus` (dtg.rs): status of a DTG node. -/
inductive DtgNodeStatus where
  | Pending
  | Executing
  | Completed
  | Failed
  | Cancelled
  | Waiting
deriving DecidableEq, Repr

/-- `DtgMetrics` (dtg.rs): performance metrics for a DTG node
(`f64` scores modelled as rationals). -/
structure DtgMetrics where
  cpu_time_ms : Nat
  memory_bytes : Nat
  network_bytes : Nat
  disk_bytes : Nat
  retry_count : Nat
  quality_score : ℚ
  confidence_score : ℚ
deriving DecidableEq, Repr

/-- `impl Default for DtgMetrics` (dtg.rs). -/
def DtgMetrics.default : DtgMetrics :=
  { cpu_time_ms := 0
    memory_bytes := 0
    network_bytes := 0
    disk_bytes := 0
    retry_count := 0
    quality_score := 1
    confidence_score := 1 }

/-- `DtgNode` (dtg.rs): a data transformation node in the DTG. -/
structure DtgNode where
  id : Uuid
  skill_id : String
  agent_id : String
  inputs : List DtgDataRef
  outputs : List DtgDataRef
  metadata : List (String × Json)
  started_at : UtcTime
  completed_at : Option UtcTime
  status : DtgNodeStatus
  error : Option String
  metrics : DtgMetrics

/-- `DtgNode::new` (dtg.rs); `Uuid::new_v4()` and `Utc::now()` are passed as
the `id` and `now` parameters. -/
def DtgNode.new (skill_id agent_id : String) (id : Uuid) (now : UtcTime) : DtgNode :=
  { id := id
    skill_id := skill_id
    agent_id := agent_id
    inputs := []
    outputs := []
    metadata := []
    started_at := now
    completed_at := none
    status := DtgNodeStatus.Pending
    error := none
    metrics := DtgMetrics.default }

/-- `DtgNode::mark_executing` (dtg.rs). -/
def DtgNode.mark_executing (n : DtgNode) (now : UtcTime) : DtgNode :=
  { n with status := DtgNodeStatus.Executing, started_at := now }

/-- `DtgNode::mark_completed` (dtg.rs). -/
def DtgNode.mark_completed (n : DtgNode) (metrics : DtgMetrics) (now : UtcTime) : DtgNode :=
  { n with status := DtgNodeStatus.Completed, completed_at := some now, metrics := metrics }

/-- `DtgNode::mark_failed` (dtg.rs). -/
def DtgNode.mark_failed (n : DtgNode) (error : String) (now : UtcTime) : DtgNode :=
  { n with status := DtgNodeStatus.Failed, completed_at := some now, error := some error }

/-- `DtgNode::add_input` (dtg.rs). -/
def DtgNode.add_input (n : DtgNode) (data_ref : DtgDataRef) : DtgNode :=
  { n with inputs := n.inputs ++ [data_ref] }

/-- `DtgNode::add_output` (dtg.rs). -/
def DtgNode.add_output (n : DtgNode) (data_ref : DtgDataRef) : DtgNode :=
  { n with outputs := n.outputs ++ [data_ref] }

/-- `DtgEdge` (dtg.rs): edge representing data flow between DTG nodes. -/
structure DtgEdge where
  source : Uuid
  target : Uuid
  data_ref : Uuid
  edge_type : String
  metadata : List (String × Json)

/-- `DtgGraphStatus` (dtg.rs): status of a complete DTG. -/
inductive DtgGraphStatus where
  | Constructing
  | Ready
  | Executing
  | Completed
  | PartiallyCompleted
  | Failed
  | Cancelled
deriving DecidableEq, Repr

/-- `DataTransformationGraph` (dtg.rs). The `nodes` HashMap is modelled as
an association list. -/
structure DataTransformationGraph where
  id : Uuid
  name : String
  root_nodes : List Uuid
  nodes : List (Uuid × DtgNode)
  edges : List DtgEdge
  graph_inputs : List DtgDataRef
  graph_outputs : List DtgDataRef
  metadata : List (String × Json)
  started_at : UtcTime
  completed_at : Option UtcTime
  status : DtgGraphStatus
  tags : List String

namespace DataTransformationGraph

/-- `HashMap::insert`: replace the binding if the key is present,
otherwise add a new binding. -/
def insertAssoc (l : List (Uuid × DtgNode)) (k : Uuid) (v : DtgNode) :
    List (Uuid × DtgNode) :=
  if l.any (fun p => p.1 = k) then
    l.map (fun p => if p.1 = k then (k, v) else p)
  else
    l ++ [(k, v)]

/-- `HashMap::get` on the association list. -/
def lookupAssoc (l : List (Uuid × DtgNode)) (k : Uuid) : Option DtgNode :=
  (l.find? (fun p => p.1 = k)).map (fun p => p.2)

/-- `DataTransformationGraph::new` (dtg.rs); the generated id and current
time are parameters. -/
def new (name : String) (id : Uuid) (now : UtcTime) : DataTransformationGraph :=
  { id := id
    name := name
    root_nodes := []
    nodes := []
    edges := []
    graph_inputs := []
    graph_outputs := []
    metadata := []
    started_at := now
    completed_at := none
    status := DtgGraphStatus.Constructing
    tags := [] }

/-- `DataTransformationGraph::add_node` (dtg.rs): returns the node id and
the updated graph. -/
def add_node (g : DataTransformationGraph) (node : DtgNode) :
    Uuid × DataTransformationGraph :=
  let node_id := node.id
  let g :=
    if node.inputs.isEmpty then
      { g with root_nodes := g.root_nodes ++ [node_id] }
    else g
  (node_id, { g with nodes := insertAssoc g.nodes node_id node })

/-- `DataTransformationGraph::add_edge` (dtg.rs). -/
def add_edge (g : DataTransformationGraph) (source target data_ref : Uuid)
    (edge_type : String) : DataTransformationGraph :=
  { g with
    edges := g.edges ++
      [{ source := source, target := target, data_ref := data_ref,
         edge_type := edge_type, metadata := [] }] }

/-- `DataTransformationGraph::mark_ready` (dtg.rs). -/
def mark_ready (g : DataTransformationGraph) : DataTransformationGraph :=
  { g with status := DtgGraphStatus.Ready }

/-- `DataTransformationGraph::mark_executing` (dtg.rs). -/
def mark_executing (g : DataTransformationGraph) (now : UtcTime) :
    DataTransformationGraph :=
  { g with status := DtgGraphStatus.Executing, started_at := now }

/-- `DataTransformationGraph::mark_completed` (dtg.rs). -/
def mark_completed (g : DataTransformationGraph) (now : UtcTime) :
    DataTransformationGraph :=
  { g with status := DtgGraphStatus.Completed, completed_at := some now }

/-- `DataTransformationGraph::get_dependencies` (dtg.rs). -/
def get_dependencies (g : DataTransformationGraph) (node_id : Uuid) : List Uuid :=
  (g.edges.filter (fun edge => edge.target = node_id)).map (fun edge => edge.source)

/-- `DataTransformationGraph::get_dependents` (dtg.rs). -/
def get_dependents (g : DataTransformationGraph) (node_id : Uuid) : List Uuid :=
  (g.edges.filter (fun edge => edge.source = node_id)).map (fun edge => edge.target)

/-- The keys of the node map. -/
def nodeKeys (g : DataTransformationGraph) : List Uuid :=
  g.nodes.map (fun p => p.1)

/-- Every id the DFS can ever push: node-map keys together with all edge
endpoints.  Used only to size the structural-recursion fuel of
`has_cycle_dfs`. -/
def allIds (g : DataTransformationGraph) : List Uuid :=
  g.nodeKeys ++ g.edges.map (fun e => e.source) ++ g.edges.map (fun e => e.target)

mutual

/-- `DataTransformationGraph::has_cycle_dfs` (dtg.rs).  The two `HashSet`
arguments (`visited`, `recursion_stack`) are passed functionally; the
`recursion_stack.remove(&node_id)` on exit is the callers' unchanged `S`.
The `fuel` argument only forces termination: `is_acyclic` supplies more
fuel than the DFS can ever consume (proved below), so the `0` branch is
never taken there. -/
def has_cycle_dfs (g : DataTransformationGraph) :
    Nat → Uuid → List Uuid → List Uuid → Bool × List Uuid
  | 0, _, V, _ => (true, V)
  | fuel + 1, u, V, S => dfsFrom g fuel (g.get_dependents u) (u :: V) (u :: S)
termination_by fuel _ _ _ => (fuel, 0)

/-- The `for dependent_id in self.get_dependents(node_id)` loop of
`has_cycle_dfs`, threading the visited set. -/
def dfsFrom (g : DataTransformationGraph) :
    Nat → List Uuid → List Uuid → List Uuid → Bool × List Uuid
  | _, [], V, _ => (false, V)
  | fuel, v :: rest, V, S =>
    if v ∈ V then
      if v ∈ S then (true, V) else dfsFrom g fuel rest V S
    else
      match has_cycle_dfs g fuel v V S with
      | (true, V') => (true, V')
      | (false, V') => dfsFrom g fuel rest V' S
termination_by fuel ds _ _ => (fuel, ds.length + 1)

end

/-- The `for node_id in self.nodes.keys()` loop of `is_acyclic`,
threading the visited set across outer iterations. -/
def acyclicLoop (g : DataTransformationGraph) (fuel : Nat) :
    List Uuid → List Uuid → Bool
  | [], _ => true
  | k :: rest, V =>
    if k ∈ V then acyclicLoop g fuel rest V
    else
      match has_cycle_dfs g fuel k V [] with
      | (true, _) => false
      | (false, V') => acyclicLoop g fuel rest V'

/-- `DataTransformationGraph::is_acyclic` (dtg.rs). -/
def is_acyclic (g : DataTransformationGraph) : Bool :=
  acyclicLoop g (g.allIds.length + 1) g.nodeKeys []

end DataTransformationGraph

/-- `CryptographicSignature` (dtg.rs). -/
structure CryptographicSignature where
  signer : String
  algorithm : String
  signature : String
  public_key : Option String
  signed_at : UtcTime

/-- `TransformationRecord` (dtg.rs). -/
structure TransformationRecord where
  node_id : Uuid
  agent_id : String
  skill_id : String
  inputs : List DtgDataRef
  outputs : List DtgDataRef
  parameters : List (String × Json)
  timestamp : UtcTime
  transformation_hash : String

/-- `SchemaVersion` (dtg.rs). -/
structure SchemaVersion where
  version : String
  schema : Json
  created_at : UtcTime
  created_by : String

/-- `QualityMetric` (dtg.rs); the `f64` value is modelled as a rational. -/
structure QualityMetric where
  metric : String
  value : ℚ
  measured_at : UtcTime
  measurement_method : String

/-- `DataLineage` (dtg.rs). -/
structure DataLineage where
  data_ref_id : Uuid
  source_nodes : List Uuid
  destination_nodes : List Uuid
  data_type : String
  schema_history : List SchemaVersion
  quality_history : List QualityMetric

/-- `AgentMetrics` (dtg.rs). -/
structure AgentMetrics where
  total_execution_time_ms : Nat
  avg_execution_time_ms : Nat
  total_nodes_executed : Nat
  successful_nodes : Nat
  failed_nodes : Nat
  resource_efficiency : ℚ
  quality_score : ℚ

/-- `GpuUsage` (dtg.rs). -/
structure GpuUsage where
  utilization_percent : ℚ
  memory_bytes : Nat
  temperature_c : ℚ
  power_watts : ℚ

/-- `ResourceUsage` (dtg.rs). -/
structure ResourceUsage where
  cpu_percent : ℚ
  memory_bytes : Nat
  network_bytes : Nat
  disk_bytes : Nat
  gpu_usage : Option GpuUsage

/-- `AgentExecutionRecord` (dtg.rs). -/
structure AgentExecutionRecord where
  agent_id : String
  executed_nodes : List Uuid
  metrics : AgentMetrics
  resource_usage : ResourceUsage
  error_rate : ℚ
  success_rate : ℚ

/-- `DtgProvenance` (dtg.rs). -/
structure DtgProvenance where
  dtg_id : Uuid
  transformation_chain : List TransformationRecord
  input_lineage : List DataLineage
  output_lineage : List DataLineage
  agent_records : List AgentExecutionRecord
  signatures : List CryptographicSignature
  recorded_at : UtcTime

namespace DtgProvenance

/-- `DtgProvenance::new` (dtg.rs); the current time is a parameter. -/
def new (dtg_id : Uuid) (now : UtcTime) : DtgProvenance :=
  { dtg_id := dtg_id
    transformation_chain := []
    input_lineage := []
    output_lineage := []
    agent_records := []
    signatures := []
    recorded_at := now }

/-- `DtgProvenance::add_transformation` (dtg.rs). -/
def add_transformation (p : DtgProvenance) (record : TransformationRecord) :
    DtgProvenance :=
  { p with transformation_chain := p.transformation_chain ++ [record] }

/-- `DtgProvenance::add_signature` (dtg.rs); the signing time is a
parameter. -/
def add_signature (p : DtgProvenance) (signer algorithm signature : String)
    (now : UtcTime) : DtgProvenance :=
  { p with signatures := p.signatures ++
      [{ signer := signer, algorithm := algorithm, signature := signature,
         public_key := none, signed_at := now }] }

/-- `DtgProvenance::verify_signatures` (dtg.rs). -/
def verify_signatures (p : DtgProvenance) : Bool :=
  !p.signatures.isEmpty

end DtgProvenance

/-! ## Operation traces

Sequences of calls to the public mutation API, used to describe the
values reachable through it. -/

/-- One call to the public `DtgNode` mutation API. -/
inductive NodeOp where
  | addInput (d : DtgDataRef)
  | addOutput (d : DtgDataRef)
  | markExecuting (now : UtcTime)
  | markCompleted (metrics : DtgMetrics) (now : UtcTime)
  | markFailed (error : String) (now : UtcTime)

/-- Apply one `DtgNode` API call. -/
def applyNodeOp (n : DtgNode) : NodeOp → DtgNode
  | NodeOp.addInput d => n.add_input d
  | NodeOp.addOutput d => n.add_output d
  | NodeOp.markExecuting now => n.mark_executing now
  | NodeOp.markCompleted m now => n.mark_completed m now
  | NodeOp.markFailed e now => n.mark_failed e now

/-- Apply a sequence of `DtgNode` API calls. -/
def runNodeOps (n : DtgNode) (ops : List NodeOp) : DtgNode :=
  ops.foldl applyNodeOp n

/-- The wall-clock instant a `DtgNode` API call reads, if any. -/
def opTime : NodeOp → Option UtcTime
  | NodeOp.addInput _ => none
  | NodeOp.addOutput _ => none
  | NodeOp.markExecuting now => some now
  | NodeOp.markCompleted _ now => some now
  | NodeOp.markFailed _ now => some now

/-- One call to the public graph-construction API. -/
inductive GraphOp where
  | addNode (n : DtgNode)
  | addEdge (source target data_ref : Uuid) (edge_type : String)

/-- Apply one graph-construction call (the id returned by `add_node` is
dropped). -/
def applyGraphOp (g : DataTransformationGraph) : GraphOp → DataTransformationGraph
  | GraphOp.addNode n => (g.add_node n).2
  | GraphOp.addEdge s t d ty => g.add_edge s t d ty

/-- Apply a sequence of graph-construction calls. -/
def runGraphOps (g : DataTransformationGraph) (ops : List GraphOp) :
    DataTransformationGraph :=
  ops.foldl applyGraphOp g

/-- A construction sequence is valid when every `add_edge` call names a
source and target that are node-map keys at the time of the call. -/
def ValidGraphOps (g : DataTransformationGraph) : List GraphOp → Prop
  | [] => True
  | op :: rest =>
    (match op with
     | GraphOp.addNode _ => True
     | GraphOp.addEdge s t _ _ => s ∈ g.nodeKeys ∧ t ∈ g.nodeKeys) ∧
    ValidGraphOps (applyGraphOp g op) rest

instance : ∀ (g : DataTransformationGraph) (ops : List GraphOp),
    Decidable (ValidGraphOps g ops)
  | _, [] => Decidable.isTrue trivial
  | g, op :: rest =>
    have : Decidable (ValidGraphOps (applyGraphOp g op) rest) :=
      instDecidableValidGraphOps _ _
    match op with
    | GraphOp.addNode _ => instDecidableAnd
    | GraphOp.addEdge _ _ _ _ => instDecidableAnd

/-! ## The data-flow relation of a graph -/

/-- There is an edge from `a` to `b` in `g`. -/
def EdgeStep (g : DataTransformationGraph) (a b : Uuid) : Prop :=
  ∃ e ∈ g.edges, e.source = a ∧ e.target = b

/-- `b` is reachable from `a` along edges of `g`. -/
def Reaches (g : DataTransformationGraph) : Uuid → Uuid → Prop :=
  Relation.ReflTransGen (EdgeStep g)

/-- The (source, target) pairs of the edge set contain a directed cycle. -/
def HasCycle (g : DataTransformationGraph) : Prop :=
  ∃ a, Relation.TransGen (EdgeStep g) a a

theorem edgeStep_iff_mem_get_dependents (g : DataTransformationGraph)
    (a b : Uuid) : EdgeStep g a b ↔ b ∈ g.get_dependents a := by
  simp only [EdgeStep, DataTransformationGraph.get_dependents, List.mem_map,
    List.mem_filter]
  constructor
  · rintro ⟨e, he, rfl, rfl⟩
    exact ⟨e, ⟨he, by simp⟩, rfl⟩
  · rintro ⟨e, ⟨he, hs⟩, rfl⟩
    exact ⟨e, he, by simpa using hs, rfl⟩

/-! ## Helper lemmas on the node map -/

namespace DataTransformationGraph

theorem find?_map_insert (k : Uuid) (v : DtgNode) :
    ∀ l : List (Uuid × DtgNode), l.any (fun p => p.1 = k) = true →
      (l.map (fun p => if p.1 = k then (k, v) else p)).find?
          (fun p => p.1 = k) = some (k, v)
  | [], h => by simp at h
  | p :: l, h => by
    by_cases hp : p.1 = k
    · simp [hp]
    · have hl : l.any (fun p => p.1 = k) = true := by
        simpa [hp] using h
      simpa [hp] using find?_map_insert k v l hl

theorem lookupAssoc_insertAssoc (l : List (Uuid × DtgNode)) (k : Uuid)
    (v : DtgNode) : lookupAssoc (insertAssoc l k v) k = some v := by
  unfold insertAssoc lookupAssoc
  by_cases h : l.any (fun p => p.1 = k) = true
  · rw [if_pos h, find?_map_insert k v l h]
    rfl
  · rw [if_neg h, List.find?_append]
    have hnone : l.find? (fun p => decide (p.1 = k)) = none := by
      rw [List.find?_eq_none]
      intro p hp
      by_contra hb
      apply h
      rw [List.any_eq_true]
      exact ⟨p, hp, by simpa using hb⟩
    simp [hnone]

/-- Inserting never removes keys from the node map. -/
theorem nodeKeys_insertAssoc_superset (l : List (Uuid × DtgNode)) (k : Uuid)
    (v : DtgNode) (x : Uuid) (hx : x ∈ l.map (fun p => p.1) ∨ x = k) :
    x ∈ (insertAssoc l k v).map (fun p => p.1) := by
  unfold insertAssoc
  by_cases h : l.any (fun p => p.1 = k) = true
  · rw [if_pos h]
    rcases hx with hx | rfl
    · rcases List.mem_map.mp hx with ⟨p, hp, rfl⟩
      refine List.mem_map.mpr ⟨if p.1 = k then (k, v) else p, List.mem_map.mpr ⟨p, hp, rfl⟩, ?_⟩
      by_cases hpk : p.1 = k <;> simp [hpk]
    · rcases List.any_eq_true.mp h with ⟨p, hp, hpk⟩
      refine List.mem_map.mpr ⟨(x, v), List.mem_map.mpr ⟨p, hp, ?_⟩, rfl⟩
      simp only [decide_eq_true_eq] at hpk
      simp [hpk]
  · rw [if_neg h]
    rcases hx with hx | rfl
    · rcases List.mem_map.mp hx with ⟨p, hp, rfl⟩
      exact List.mem_map.mpr ⟨p, List.mem_append_left _ hp, rfl⟩
    · exact List.mem_map.mpr ⟨(x, v), List.mem_append_right _ (by simp), rfl⟩

end DataTransformationGraph

/-! ## C4: `add_node` -/

/-- C4: `add_node(node)` returns the node's id, inserts the node into the
node map under that id, appends the id to `root_nodes` exactly when the
node's input list is empty, and changes nothing else (it is total, so it
never fails). -/
theorem add_node_spec (g : DataTransformationGraph) (node : DtgNode) :
    (g.add_node node).1 = node.id ∧
    DataTransformationGraph.lookupAssoc (g.add_node node).2.nodes node.id = some node ∧
    (g.add_node node).2.root_nodes =
      (if node.inputs.isEmpty then g.root_nodes ++ [node.id] else g.root_nodes) ∧
    (g.add_node node).2.edges = g.edges ∧
    (g.add_node node).2.status = g.status ∧
    (g.add_node node).2.id = g.id ∧
    (g.add_node node).2.name = g.name ∧
    (g.add_node node).2.graph_inputs = g.graph_inputs ∧
    (g.add_node node).2.graph_outputs = g.graph_outputs ∧
    (g.add_node node).2.metadata = g.metadata ∧
    (g.add_node node).2.started_at = g.started_at ∧
    (g.add_node node).2.completed_at = g.completed_at ∧
    (g.add_node node).2.tags = g.tags := by
  unfold DataTransformationGraph.add_node
  by_cases h : node.inputs.isEmpty <;>
    simp [h, DataTransformationGraph.lookupAssoc_insertAssoc]

/-! ## C5: `add_edge` is append-only -/

/-- A construction call that only adds an edge. -/
def IsAddEdge : GraphOp → Prop
  | GraphOp.addNode _ => False
  | GraphOp.addEdge _ _ _ _ => True

instance : ∀ op : GraphOp, Decidable (IsAddEdge op)
  | GraphOp.addNode _ => Decidable.isFalse id
  | GraphOp.addEdge _ _ _ _ => Decidable.isTrue trivial

/-- C5: `add_edge` appends exactly one edge and leaves every other field
of the graph unchanged; consequently any sequence of `add_edge` calls
leaves `root_nodes` (and so root membership) exactly as it was. -/
theorem add_edge_spec (g : DataTransformationGraph) (source target data_ref : Uuid)
    (edge_type : String) :
    (g.add_edge source target data_ref edge_type).edges =
      g.edges ++ [{ source := source, target := target, data_ref := data_ref,
                    edge_type := edge_type, metadata := [] }] ∧
    (g.add_edge source target data_ref edge_type).root_nodes = g.root_nodes ∧
    (g.add_edge source target data_ref edge_type).nodes = g.nodes ∧
    (g.add_edge source target data_ref edge_type).status = g.status ∧
    (g.add_edge source target data_ref edge_type).id = g.id ∧
    (g.add_edge source target data_ref edge_type).name = g.name ∧
    (g.add_edge source target data_ref edge_type).graph_inputs = g.graph_inputs ∧
    (g.add_edge source target data_ref edge_type).graph_outputs = g.graph_outputs ∧
    (g.add_edge source target data_ref edge_type).metadata = g.metadata ∧
    (g.add_edge source target data_ref edge_type).started_at = g.started_at ∧
    (g.add_edge source target data_ref edge_type).completed_at = g.completed_at ∧
    (g.add_edge source target data_ref edge_type).tags = g.tags ∧
    (∀ ops : List GraphOp, (∀ op ∈ ops, IsAddEdge op) →
      (runGraphOps g ops).root_nodes = g.root_nodes) := by
  refine ⟨rfl, rfl, rfl, rfl, rfl, rfl, rfl, rfl, rfl, rfl, rfl, rfl, ?_⟩
  intro ops
  induction ops generalizing g with
  | nil => intro _; rfl
  | cons op rest ih =>
    intro h
    have hop := h op (by simp)
    match op with
    | GraphOp.addEdge s t d ty =>
      have : runGraphOps g (GraphOp.addEdge s t d ty :: rest) =
          runGraphOps (g.add_edge s t d ty) rest := rfl
      rw [this, ih (g.add_edge s t d ty) (fun o ho => h o (by simp [ho]))]
      rfl

/-- Witness for C5 at a concrete graph and edge sequence. -/
theorem add_edge_spec_witness :
    (runGraphOps (DataTransformationGraph.new "w" 0 ⟨2024, 1, 1, 0, 0, 0⟩)
        [GraphOp.addEdge 1 2 3 "data_flow", GraphOp.addEdge 4 1 5 "data_flow"]).root_nodes =
      (DataTransformationGraph.new "w" 0 ⟨2024, 1, 1, 0, 0, 0⟩).root_nodes := by
  have h := add_edge_spec (DataTransformationGraph.new "w" 0 ⟨2024, 1, 1, 0, 0, 0⟩)
    1 2 3 "data_flow"
  exact h.2.2.2.2.2.2.2.2.2.2.2.2
    [GraphOp.addEdge 1 2 3 "data_flow", GraphOp.addEdge 4 1 5 "data_flow"] (by decide)

/-! ## C6: `get_dependencies` / `get_dependents` -/

theorem count_filter_map_source : ∀ (es : List DtgEdge) (s t : Uuid),
    ((es.filter (fun e => e.target = t)).map (fun e => e.source)).count s =
      (es.filter (fun e => e.source = s ∧ e.target = t)).length
  | [], _, _ => rfl
  | e :: es, s, t => by
    by_cases ht : e.target = t <;> by_cases hs : e.source = s <;>
      simp [ht, hs, List.count_cons, count_filter_map_source es s t]

theorem count_filter_map_target : ∀ (es : List DtgEdge) (s t : Uuid),
    ((es.filter (fun e => e.source = s)).map (fun e => e.target)).count t =
      (es.filter (fun e => e.source = s ∧ e.target = t)).length
  | [], _, _ => rfl
  | e :: es, s, t => by
    by_cases ht : e.target = t <;> by_cases hs : e.source = s <;>
      simp [ht, hs, List.count_cons, count_filter_map_target es s t]

/-- C6: for every edge (s, t) of the graph, `t` appears in
`get_dependents(s)` and `s` appears in `get_dependencies(t)`; multiplicity
is the number of matching edges (duplicates preserved); and a newly added
edge contributes exactly one appended element to each query, following
edge insertion order. -/
theorem dependencies_dependents_spec (g : DataTransformationGraph) :
    (∀ e ∈ g.edges,
      e.target ∈ g.get_dependents e.source ∧ e.source ∈ g.get_dependencies e.target) ∧
    (∀ s t : Uuid,
      (g.get_dependencies t).count s =
        (g.edges.filter (fun e => e.source = s ∧ e.target = t)).length ∧
      (g.get_dependents s).count t =
        (g.edges.filter (fun e => e.source = s ∧ e.target = t)).length) ∧
    (∀ (s t d : Uuid) (ty : String),
      (g.add_edge s t d ty).get_dependencies t = g.get_dependencies t ++ [s] ∧
      (g.add_edge s t d ty).get_dependents s = g.get_dependents s ++ [t]) := by
  refine ⟨?_, ?_, ?_⟩
  · intro e he
    constructor
    · exact List.mem_map.mpr ⟨e, List.mem_filter.mpr ⟨he, by simp⟩, rfl⟩
    · exact List.mem_map.mpr ⟨e, List.mem_filter.mpr ⟨he, by simp⟩, rfl⟩
  · intro s t
    exact ⟨count_filter_map_source g.edges s t, count_filter_map_target g.edges s t⟩
  · intro s t d ty
    constructor
    · simp [DataTransformationGraph.get_dependencies, DataTransformationGraph.add_edge,
        List.filter_append]
    · simp [DataTransformationGraph.get_dependents, DataTransformationGraph.add_edge,
        List.filter_append]

/-- Witness for C6 at a concrete one-edge graph. -/
theorem dependencies_dependents_spec_witness :
    (2 : Uuid) ∈ ((DataTransformationGraph.new "w" 0 ⟨2024, 1, 1, 0, 0, 0⟩).add_edge
        1 2 3 "data_flow").get_dependents 1 ∧
    (1 : Uuid) ∈ ((DataTransformationGraph.new "w" 0 ⟨2024, 1, 1, 0, 0, 0⟩).add_edge
        1 2 3 "data_flow").get_dependencies 2 := by
  have h := (dependencies_dependents_spec
      ((DataTransformationGraph.new "w" 0 ⟨2024, 1, 1, 0, 0, 0⟩).add_edge 1 2 3
        "data_flow")).1
    { source := 1, target := 2, data_ref := 3, edge_type := "data_flow", metadata := [] }
    (by simp [DataTransformationGraph.add_edge, DataTransformationGraph.new])
  exact ⟨h.1, h.2⟩

/-! ## C7: `verify_signatures` -/

/-- C7: `verify_signatures` is false on a freshly constructed ledger, true
after any `add_signature` call, and in general true exactly when the
signature list is non-empty. -/
theorem verify_signatures_spec :
    (∀ (dtg_id : Uuid) (now : UtcTime),
      (DtgProvenance.new dtg_id now).verify_signatures = false) ∧
    (∀ (p : DtgProvenance) (signer algorithm signature : String) (now : UtcTime),
      (p.add_signature signer algorithm signature now).verify_signatures = true) ∧
    (∀ p : DtgProvenance, p.verify_signatures = true ↔ p.signatures ≠ []) := by
  refine ⟨fun _ _ => rfl, fun p s a sg now => ?_, fun p => ?_⟩
  · simp [DtgProvenance.add_signature, DtgProvenance.verify_signatures]
  · cases h : p.signatures <;> simp [DtgProvenance.verify_signatures, h]

/-! ## C9: reachable node statuses -/

theorem runNodeOps_status_vocabulary (n : DtgNode) (ops : List NodeOp)
    (h : n.status = DtgNodeStatus.Pending ∨ n.status = DtgNodeStatus.Executing ∨
      n.status = DtgNodeStatus.Completed ∨ n.status = DtgNodeStatus.Failed) :
    (runNodeOps n ops).status = DtgNodeStatus.Pending ∨
    (runNodeOps n ops).status = DtgNodeStatus.Executing ∨
    (runNodeOps n ops).status = DtgNodeStatus.Completed ∨
    (runNodeOps n ops).status = DtgNodeStatus.Failed := by
  induction ops generalizing n with
  | nil => exact h
  | cons op rest ih =>
    show (runNodeOps (applyNodeOp n op) rest).status = _ ∨ _
    apply ih
    cases op with
    | addInput d => simpa [applyNodeOp, DtgNode.add_input] using h
    | addOutput d => simpa [applyNodeOp, DtgNode.add_output] using h
    | markExecuting now => simp [applyNodeOp, DtgNode.mark_executing]
    | markCompleted m now => simp [applyNodeOp, DtgNode.mark_completed]
    | markFailed e now => simp [applyNodeOp, DtgNode.mark_failed]

/-- C9: every node reachable through the public `DtgNode` operations has a
status among Pending, Executing, Completed, Failed; in particular it is
never Cancelled and never Waiting. -/
theorem node_status_never_cancelled_or_waiting (skill_id agent_id : String)
    (id : Uuid) (t0 : UtcTime) (ops : List NodeOp) :
    ((runNodeOps (DtgNode.new skill_id agent_id id t0) ops).status = DtgNodeStatus.Pending ∨
     (runNodeOps (DtgNode.new skill_id agent_id id t0) ops).status = DtgNodeStatus.Executing ∨
     (runNodeOps (DtgNode.new skill_id agent_id id t0) ops).status = DtgNodeStatus.Completed ∨
     (runNodeOps (DtgNode.new skill_id agent_id id t0) ops).status = DtgNodeStatus.Failed) ∧
    (runNodeOps (DtgNode.new skill_id agent_id id t0) ops).status ≠ DtgNodeStatus.Cancelled ∧
    (runNodeOps (DtgNode.new skill_id agent_id id t0) ops).status ≠ DtgNodeStatus.Waiting := by
  have h := runNodeOps_status_vocabulary (DtgNode.new skill_id agent_id id t0) ops
    (Or.inl rfl)
  refine ⟨h, ?_, ?_⟩ <;> rcases h with h | h | h | h <;> simp [h]

/-! ## C2: lifecycle invariant on `completed_at` / `error` -/

/-- Lifecycle legality of a single call given the node's current status:
`mark_executing` is not applied to a Completed/Failed node and
`mark_completed` is not applied to a Failed node. -/
def NodeOpAllowed (st : DtgNodeStatus) : NodeOp → Prop
  | NodeOp.markExecuting _ =>
      st ≠ DtgNodeStatus.Completed ∧ st ≠ DtgNodeStatus.Failed
  | NodeOp.markCompleted _ _ => st ≠ DtgNodeStatus.Failed
  | _ => True

instance : ∀ (st : DtgNodeStatus) (op : NodeOp), Decidable (NodeOpAllowed st op)
  | _, NodeOp.addInput _ => Decidable.isTrue trivial
  | _, NodeOp.addOutput _ => Decidable.isTrue trivial
  | _, NodeOp.markExecuting _ => instDecidableAnd
  | _, NodeOp.markCompleted _ _ => instDecidableNot
  | _, NodeOp.markFailed _ _ => Decidable.isTrue trivial

/-- Lifecycle legality of a call sequence. -/
def LegalNodeOps (n : DtgNode) : List NodeOp → Prop
  | [] => True
  | op :: rest => NodeOpAllowed n.status op ∧ LegalNodeOps (applyNodeOp n op) rest

instance : ∀ (n : DtgNode) (ops : List NodeOp), Decidable (LegalNodeOps n ops)
  | _, [] => Decidable.isTrue trivial
  | n, op :: rest =>
    have : Decidable (LegalNodeOps (applyNodeOp n op) rest) :=
      instDecidableLegalNodeOps _ _
    instDecidableAnd

/-- The state invariant relating status, `completed_at` and `error`. -/
def StateOk (n : DtgNode) : Prop :=
  ((n.status = DtgNodeStatus.Pending ∨ n.status = DtgNodeStatus.Executing) →
    (n.completed_at = none ∧ n.error = none)) ∧
  (n.status = DtgNodeStatus.Completed → (n.completed_at ≠ none ∧ n.error = none)) ∧
  (n.status = DtgNodeStatus.Failed → n.completed_at ≠ none) ∧
  n.status ≠ DtgNodeStatus.Cancelled ∧ n.status ≠ DtgNodeStatus.Waiting

theorem stateOk_applyNodeOp (n : DtgNode) (op : NodeOp) (h : StateOk n)
    (hop : NodeOpAllowed n.status op) : StateOk (applyNodeOp n op) := by
  obtain ⟨hpe, hc, hf, hnc, hnw⟩ := h
  cases op with
  | addInput d =>
    exact ⟨hpe, hc, hf, hnc, hnw⟩
  | addOutput d =>
    exact ⟨hpe, hc, hf, hnc, hnw⟩
  | markExecuting now =>
    have hst : n.status = DtgNodeStatus.Pending ∨ n.status = DtgNodeStatus.Executing := by
      cases hs : n.status <;> simp_all [NodeOpAllowed]
    have := hpe hst
    simp [applyNodeOp, DtgNode.mark_executing, StateOk, this.1, this.2]
  | markCompleted m now =>
    have herr : n.error = none := by
      cases hs : n.status with
      | Pending => exact (hpe (Or.inl hs)).2
      | Executing => exact (hpe (Or.inr hs)).2
      | Completed => exact (hc hs).2
      | Failed => exact absurd hs (by simpa [NodeOpAllowed] using hop)
      | Cancelled => exact absurd hs hnc
      | Waiting => exact absurd hs hnw
    simp [applyNodeOp, DtgNode.mark_completed, StateOk, herr]
  | markFailed e now =>
    simp [applyNodeOp, DtgNode.mark_failed, StateOk]

theorem stateOk_runNodeOps (n : DtgNode) (ops : List NodeOp) (h : StateOk n)
    (hl : LegalNodeOps n ops) : StateOk (runNodeOps n ops) := by
  induction ops generalizing n with
  | nil => exact h
  | cons op rest ih =>
    exact ih (applyNodeOp n op) (stateOk_applyNodeOp n op h hl.1) hl.2

/-- C2 counterexample: calling `mark_completed` and then `mark_executing`
(both public operations, accepted unchecked by the code) yields a node
whose `completed_at` is set while its status is Executing, so the claimed
invariant fails for nodes reachable through arbitrary sequences of the
public operations. -/
theorem node_lifecycle_invariant_counterexample :
    (runNodeOps (DtgNode.new "skill" "agent" 0 ⟨2024, 1, 1, 0, 0, 0⟩)
        [NodeOp.markCompleted DtgMetrics.default ⟨2024, 1, 1, 0, 0, 1⟩,
         NodeOp.markExecuting ⟨2024, 1, 1, 0, 0, 2⟩]).completed_at ≠ none ∧
    (runNodeOps (DtgNode.new "skill" "agent" 0 ⟨2024, 1, 1, 0, 0, 0⟩)
        [NodeOp.markCompleted DtgMetrics.default ⟨2024, 1, 1, 0, 0, 1⟩,
         NodeOp.markExecuting ⟨2024, 1, 1, 0, 0, 2⟩]).status ≠ DtgNodeStatus.Completed ∧
    (runNodeOps (DtgNode.new "skill" "agent" 0 ⟨2024, 1, 1, 0, 0, 0⟩)
        [NodeOp.markCompleted DtgMetrics.default ⟨2024, 1, 1, 0, 0, 1⟩,
         NodeOp.markExecuting ⟨2024, 1, 1, 0, 0, 2⟩]).status ≠ DtgNodeStatus.Failed ∧
    (runNodeOps (DtgNode.new "skill" "agent" 0 ⟨2024, 1, 1, 0, 0, 0⟩)
        [NodeOp.markCompleted DtgMetrics.default ⟨2024, 1, 1, 0, 0, 1⟩,
         NodeOp.markExecuting ⟨2024, 1, 1, 0, 0, 2⟩]).status ≠ DtgNodeStatus.Cancelled := by
  refine ⟨?_, ?_, ?_, ?_⟩ <;> decide

/-- C2 (amended): for every node reachable through sequences of the public
operations that never call `mark_executing` on a Completed or Failed node
and never call `mark_completed` on a Failed node, `completed_at` is set if
and only if the status is Completed, Failed, or Cancelled, and `error` is
set only when the status is Failed. -/
theorem node_lifecycle_invariant (skill_id agent_id : String) (id : Uuid)
    (t0 : UtcTime) (ops : List NodeOp)
    (hl : LegalNodeOps (DtgNode.new skill_id agent_id id t0) ops) :
    ((runNodeOps (DtgNode.new skill_id agent_id id t0) ops).completed_at ≠ none ↔
      ((runNodeOps (DtgNode.new skill_id agent_id id t0) ops).status = DtgNodeStatus.Completed ∨
       (runNodeOps (DtgNode.new skill_id agent_id id t0) ops).status = DtgNodeStatus.Failed ∨
       (runNodeOps (DtgNode.new skill_id agent_id id t0) ops).status = DtgNodeStatus.Cancelled)) ∧
    ((runNodeOps (DtgNode.new skill_id agent_id id t0) ops).error ≠ none →
      (runNodeOps (DtgNode.new skill_id agent_id id t0) ops).status = DtgNodeStatus.Failed) := by
  have h0 : StateOk (DtgNode.new skill_id agent_id id t0) := by
    refine ⟨fun _ => ⟨rfl, rfl⟩, ?_, ?_, ?_, ?_⟩ <;> simp [DtgNode.new]
  obtain ⟨hpe, hc, hf, hnc, hnw⟩ := stateOk_runNodeOps _ ops h0 hl
  constructor
  · constructor
    · intro hset
      cases hs : (runNodeOps (DtgNode.new skill_id agent_id id t0) ops).status with
      | Pending => exact absurd (hpe (Or.inl hs)).1 hset
      | Executing => exact absurd (hpe (Or.inr hs)).1 hset
      | Completed => exact Or.inl rfl
      | Failed => exact Or.inr (Or.inl rfl)
      | Cancelled => exact absurd hs hnc
      | Waiting => exact absurd hs hnw
    · rintro (hs | hs | hs)
      · exact (hc hs).1
      · exact hf hs
      · exact absurd hs hnc
  · intro herr
    cases hs : (runNodeOps (DtgNode.new skill_id agent_id id t0) ops).status with
    | Pending => exact absurd (hpe (Or.inl hs)).2 herr
    | Executing => exact absurd (hpe (Or.inr hs)).2 herr
    | Completed => exact absurd (hc hs).2 herr
    | Failed => rfl
    | Cancelled => exact absurd hs hnc
    | Waiting => exact absurd hs hnw

/-- Witness for the amended C2 at a concrete legal sequence. -/
theorem node_lifecycle_invariant_witness :
    LegalNodeOps (DtgNode.new "s" "a" 0 ⟨2024, 1, 1, 0, 0, 0⟩)
      [NodeOp.markExecuting ⟨2024, 1, 1, 0, 0, 1⟩,
       NodeOp.markCompleted DtgMetrics.default ⟨2024, 1, 1, 0, 0, 2⟩] ∧
    (((runNodeOps (DtgNode.new "s" "a" 0 ⟨2024, 1, 1, 0, 0, 0⟩)
        [NodeOp.markExecuting ⟨2024, 1, 1, 0, 0, 1⟩,
         NodeOp.markCompleted DtgMetrics.default ⟨2024, 1, 1, 0, 0, 2⟩]).completed_at ≠ none ↔
      ((runNodeOps (DtgNode.new "s" "a" 0 ⟨2024, 1, 1, 0, 0, 0⟩)
        [NodeOp.markExecuting ⟨2024, 1, 1, 0, 0, 1⟩,
         NodeOp.markCompleted DtgMetrics.default ⟨2024, 1, 1, 0, 0, 2⟩]).status = DtgNodeStatus.Completed ∨
       (runNodeOps (DtgNode.new "s" "a" 0 ⟨2024, 1, 1, 0, 0, 0⟩)
        [NodeOp.markExecuting ⟨2024, 1, 1, 0, 0, 1⟩,
         NodeOp.markCompleted DtgMetrics.default ⟨2024, 1, 1, 0, 0, 2⟩]).status = DtgNodeStatus.Failed ∨
       (runNodeOps (DtgNode.new "s" "a" 0 ⟨2024, 1, 1, 0, 0, 0⟩)
        [NodeOp.markExecuting ⟨2024, 1, 1, 0, 0, 1⟩,
         NodeOp.markCompleted DtgMetrics.default ⟨2024, 1, 1, 0, 0, 2⟩]).status = DtgNodeStatus.Cancelled)) ∧
     ((runNodeOps (DtgNode.new "s" "a" 0 ⟨2024, 1, 1, 0, 0, 0⟩)
        [NodeOp.markExecuting ⟨2024, 1, 1, 0, 0, 1⟩,
         NodeOp.markCompleted DtgMetrics.default ⟨2024, 1, 1, 0, 0, 2⟩]).error ≠ none →
      (runNodeOps (DtgNode.new "s" "a" 0 ⟨2024, 1, 1, 0, 0, 0⟩)
        [NodeOp.markExecuting ⟨2024, 1, 1, 0, 0, 1⟩,
         NodeOp.markCompleted DtgMetrics.default ⟨2024, 1, 1, 0, 0, 2⟩]).status = DtgNodeStatus.Failed)) :=
  ⟨by decide, node_lifecycle_invariant "s" "a" 0 ⟨2024, 1, 1, 0, 0, 0⟩
      [NodeOp.markExecuting ⟨2024, 1, 1, 0, 0, 1⟩,
       NodeOp.markCompleted DtgMetrics.default ⟨2024, 1, 1, 0, 0, 2⟩] (by decide)⟩

/-! ## C3: `mark_completed` / `mark_failed` timestamps -/

theorem utcle_trans {a b c : UtcTime} (hab : a.le b) (hbc : b.le c) : a.le c :=
  Nat.le_trans hab hbc

theorem chain'_le_drop (a b : UtcTime) (l : List UtcTime)
    (h : List.Chain' UtcTime.le (a :: b :: l)) : List.Chain' UtcTime.le (a :: l) := by
  cases l with
  | nil => simp
  | cons c l =>
    rw [List.chain'_cons] at h ⊢
    obtain ⟨hab, h2⟩ := h
    rw [List.chain'_cons] at h2
    exact ⟨utcle_trans hab h2.1, h2.2⟩

/-- If the wall-clock instants observed along a call sequence are
nondecreasing and end below `now`, the final `started_at` is below `now`. -/
theorem runNodeOps_started_at_le (ops : List NodeOp) (n : DtgNode) (now : UtcTime)
    (h : List.Chain' UtcTime.le (n.started_at :: ops.filterMap opTime ++ [now])) :
    (runNodeOps n ops).started_at.le now := by
  induction ops generalizing n with
  | nil =>
    have h' : List.Chain' UtcTime.le [n.started_at, now] := by simpa using h
    exact (List.chain'_cons.mp h').1
  | cons op rest ih =>
    show (runNodeOps (applyNodeOp n op) rest).started_at.le now
    cases op with
    | addInput d => exact ih (n.add_input d) (by simpa [opTime] using h)
    | addOutput d => exact ih (n.add_output d) (by simpa [opTime] using h)
    | markExecuting t =>
      refine ih (n.mark_executing t) ?_
      have := (List.chain'_cons.mp (by simpa [opTime] using h)).2
      simpa [DtgNode.mark_executing] using this
    | markCompleted m t =>
      refine ih (n.mark_completed m t) ?_
      have := chain'_le_drop n.started_at t _ (by simpa [opTime] using h)
      simpa [DtgNode.mark_completed] using this
    | markFailed e t =>
      refine ih (n.mark_failed e t) ?_
      have := chain'_le_drop n.started_at t _ (by simpa [opTime] using h)
      simpa [DtgNode.mark_failed] using this

/-- C3: under a monotone wall clock, `mark_completed` on any reachable node
sets `completed_at` to the (non-null) current instant, which is at or after
the node's `started_at`; and `mark_failed(e)` on any node sets `error` to
`Some(e)`, status to exactly Failed, and `completed_at` to the current
instant. -/
theorem mark_completed_mark_failed_spec (skill_id agent_id : String) (id : Uuid)
    (t0 : UtcTime) (ops : List NodeOp) (metrics : DtgMetrics) (now : UtcTime)
    (hclock : List.Chain' UtcTime.le (t0 :: ops.filterMap opTime ++ [now])) :
    (((runNodeOps (DtgNode.new skill_id agent_id id t0) ops).mark_completed metrics
        now).completed_at = some now ∧
     ((runNodeOps (DtgNode.new skill_id agent_id id t0) ops).mark_completed metrics
        now).started_at.le now) ∧
    (∀ (n : DtgNode) (e : String) (t : UtcTime),
      (n.mark_failed e t).error = some e ∧
      (n.mark_failed e t).status = DtgNodeStatus.Failed ∧
      (n.mark_failed e t).completed_at = some t) := by
  refine ⟨⟨rfl, ?_⟩, fun n e t => ⟨rfl, rfl, rfl⟩⟩
  exact runNodeOps_started_at_le ops (DtgNode.new skill_id agent_id id t0) now hclock

/-- Witness for C3 at a concrete monotone call sequence. -/
theorem mark_completed_mark_failed_spec_witness :
    List.Chain' UtcTime.le (⟨2024, 1, 1, 0, 0, 0⟩ ::
      [NodeOp.markExecuting ⟨2024, 1, 1, 0, 0, 5⟩].filterMap opTime ++
        [⟨2024, 1, 1, 0, 0, 9⟩]) ∧
    ((((runNodeOps (DtgNode.new "s" "a" 0 ⟨2024, 1, 1, 0, 0, 0⟩)
        [NodeOp.markExecuting ⟨2024, 1, 1, 0, 0, 5⟩]).mark_completed DtgMetrics.default
        ⟨2024, 1, 1, 0, 0, 9⟩).completed_at = some ⟨2024, 1, 1, 0, 0, 9⟩ ∧
      (((runNodeOps (DtgNode.new "s" "a" 0 ⟨2024, 1, 1, 0, 0, 0⟩)
        [NodeOp.markExecuting ⟨2024, 1, 1, 0, 0, 5⟩]).mark_completed DtgMetrics.default
        ⟨2024, 1, 1, 0, 0, 9⟩).started_at).le ⟨2024, 1, 1, 0, 0, 9⟩) ∧
     (∀ (n : DtgNode) (e : String) (t : UtcTime),
      (n.mark_failed e t).error = some e ∧
      (n.mark_failed e t).status = DtgNodeStatus.Failed ∧
      (n.mark_failed e t).completed_at = some t)) :=
  ⟨List.Chain.cons (by decide) (List.Chain.cons (by decide) List.Chain.nil),
   mark_completed_mark_failed_spec "s" "a" 0 ⟨2024, 1, 1, 0, 0, 0⟩
    [NodeOp.markExecuting ⟨2024, 1, 1, 0, 0, 5⟩] DtgMetrics.default
    ⟨2024, 1, 1, 0, 0, 9⟩
    (List.Chain.cons (by decide) (List.Chain.cons (by decide) List.Chain.nil))⟩

/-! ## C10: a cycle outside the node map goes undetected -/

/-- C10: `add_edge` accepts endpoints that are not node-map keys, and
`is_acyclic` starts its DFS only from node-map keys, so a graph whose
edges form the cycle 1 -> 2 -> 1 between ids absent from the node map is
reported acyclic. -/
theorem cycle_outside_node_map_undetected :
    (runGraphOps (DataTransformationGraph.new "g" 0 ⟨2024, 1, 1, 0, 0, 0⟩)
      [GraphOp.addEdge 1 2 7 "data_flow",
       GraphOp.addEdge 2 1 8 "data_flow"]).is_acyclic = true ∧
    Relation.TransGen
      (EdgeStep (runGraphOps (DataTransformationGraph.new "g" 0 ⟨2024, 1, 1, 0, 0, 0⟩)
        [GraphOp.addEdge 1 2 7 "data_flow", GraphOp.addEdge 2 1 8 "data_flow"])) 1 1 ∧
    (1 : Uuid) ∉ (runGraphOps (DataTransformationGraph.new "g" 0 ⟨2024, 1, 1, 0, 0, 0⟩)
      [GraphOp.addEdge 1 2 7 "data_flow", GraphOp.addEdge 2 1 8 "data_flow"]).nodeKeys ∧
    (2 : Uuid) ∉ (runGraphOps (DataTransformationGraph.new "g" 0 ⟨2024, 1, 1, 0, 0, 0⟩)
      [GraphOp.addEdge 1 2 7 "data_flow", GraphOp.addEdge 2 1 8 "data_flow"]).nodeKeys := by
  have hedges : (runGraphOps (DataTransformationGraph.new "g" 0 ⟨2024, 1, 1, 0, 0, 0⟩)
      [GraphOp.addEdge 1 2 7 "data_flow", GraphOp.addEdge 2 1 8 "data_flow"]).edges =
      [{ source := 1, target := 2, data_ref := 7, edge_type := "data_flow", metadata := [] },
       { source := 2, target := 1, data_ref := 8, edge_type := "data_flow", metadata := [] }] :=
    rfl
  refine ⟨rfl, ?_, by simp [DataTransformationGraph.nodeKeys, runGraphOps, applyGraphOp,
    DataTransformationGraph.add_edge, DataTransformationGraph.new],
    by simp [DataTransformationGraph.nodeKeys, runGraphOps, applyGraphOp,
    DataTransformationGraph.add_edge, DataTransformationGraph.new]⟩
  have h12 : EdgeStep (runGraphOps (DataTransformationGraph.new "g" 0 ⟨2024, 1, 1, 0, 0, 0⟩)
      [GraphOp.addEdge 1 2 7 "data_flow", GraphOp.addEdge 2 1 8 "data_flow"]) 1 2 :=
    ⟨{ source := 1, target := 2, data_ref := 7, edge_type := "data_flow", metadata := [] },
     by rw [hedges]; simp, rfl, rfl⟩
  have h21 : EdgeStep (runGraphOps (DataTransformationGraph.new "g" 0 ⟨2024, 1, 1, 0, 0, 0⟩)
      [GraphOp.addEdge 1 2 7 "data_flow", GraphOp.addEdge 2 1 8 "data_flow"]) 2 1 :=
    ⟨{ source := 2, target := 1, data_ref := 8, edge_type := "data_flow", metadata := [] },
     by rw [hedges]; simp, rfl, rfl⟩
  exact Relation.TransGen.tail (Relation.TransGen.single h12) h21

/-! ## C1: correctness of `is_acyclic`

The proof follows the classical grey/black DFS argument.  `V` is the
`visited` set, `S` the `recursion_stack`.  A node is *finished* when it is
visited but no longer on the stack.  The two invariants: successors of
finished nodes are finished (`DfsClosed`), and no finished node lies on a
cycle (`NoCycleFin`). -/

/-- Successors of finished nodes are finished. -/
def DfsClosed (g : DataTransformationGraph) (V S : List Uuid) : Prop :=
  ∀ a ∈ V, a ∉ S → ∀ b, EdgeStep g a b → b ∈ V ∧ b ∉ S

/-- No finished node lies on a directed cycle. -/
def NoCycleFin (g : DataTransformationGraph) (V S : List Uuid) : Prop :=
  ∀ a ∈ V, a ∉ S → ¬ Relation.TransGen (EdgeStep g) a a

/-- Anything reachable from a finished node is finished. -/
theorem reach_finished {g : DataTransformationGraph} {V S : List Uuid}
    (hcl : DfsClosed g V S) {a b : Uuid} (hr : Reaches g a b) :
    a ∈ V → a ∉ S → b ∈ V ∧ b ∉ S := by
  induction hr using Relation.ReflTransGen.head_induction_on with
  | refl => exact fun h1 h2 => ⟨h1, h2⟩
  | head step _ ih =>
    intro h1 h2
    obtain ⟨hc1, hc2⟩ := hcl _ h1 h2 _ step
    exact ih hc1 hc2

/-- Every element of the stack reaches the stack's top along edges of the
graph (the stack grows at the head, each new head a dependent of the
previous head). -/
theorem stack_reaches_top (g : DataTransformationGraph) :
    ∀ (S : List Uuid) (u : Uuid),
      List.Chain' (fun a b => EdgeStep g b a) (u :: S) →
      ∀ v ∈ u :: S, Reaches g v u := by
  intro S
  induction S with
  | nil =>
    intro u _ v hv
    rw [List.mem_singleton] at hv
    exact hv ▸ Relation.ReflTransGen.refl
  | cons w S ih =>
    intro u hchain v hv
    rw [List.chain'_cons] at hchain
    rcases List.mem_cons.mp hv with rfl | hv
    · exact Relation.ReflTransGen.refl
    · exact Relation.ReflTransGen.tail (ih w hchain.2 v hv) hchain.1

theorem length_filter_le_of_imp (l : List Uuid) (p q : Uuid → Prop)
    [DecidablePred p] [DecidablePred q] (h : ∀ x, p x → q x) :
    (l.filter (fun x => p x)).length ≤ (l.filter (fun x => q x)).length := by
  induction l with
  | nil => exact Nat.le_refl 0
  | cons a l ih =>
    by_cases hpa : p a
    · simp [hpa, h a hpa, ih]
    · by_cases hqa : q a <;> simp [hpa, hqa] <;> omega

/-- Pushing a genuinely new id from the universe strictly shrinks the
unvisited count. -/
theorem filter_not_mem_cons_lt (l : List Uuid) (u : Uuid) (V : List Uuid)
    (hu : u ∈ l) (huV : u ∉ V) :
    (l.filter (fun x => x ∉ u :: V)).length < (l.filter (fun x => x ∉ V)).length := by
  induction l with
  | nil => cases hu
  | cons a l ih =>
    by_cases hau : a = u
    · subst hau
      have hle := length_filter_le_of_imp l (fun x => x ∉ a :: V) (fun x => x ∉ V)
        (fun x hx hxV => hx (List.mem_cons_of_mem a hxV))
      have e1 : (a :: l).filter (fun x => x ∉ a :: V) = l.filter (fun x => x ∉ a :: V) := by
        simp
      have e2 : (a :: l).filter (fun x => x ∉ V) = a :: l.filter (fun x => x ∉ V) := by
        simp [huV]
      rw [e1, e2, List.length_cons]
      exact Nat.lt_succ_of_le hle
    · have hu2 : u ∈ l := by
        rcases List.mem_cons.mp hu with h | h
        · exact absurd h.symm hau
        · exact h
      by_cases haV : a ∈ V
      · have h1 : a ∈ u :: V := List.mem_cons_of_mem u haV
        have e1 : (a :: l).filter (fun x => x ∉ u :: V) = l.filter (fun x => x ∉ u :: V) := by
          simp [List.filter_cons, haV]
        have e2 : (a :: l).filter (fun x => x ∉ V) = l.filter (fun x => x ∉ V) := by
          simp [haV]
        rw [e1, e2]
        exact ih hu2
      · have h1 : a ∉ u :: V := by
          intro hmem
          rcases List.mem_cons.mp hmem with h | h
          · exact hau h
          · exact haV h
        have e1 : (a :: l).filter (fun x => x ∉ u :: V) =
            a :: l.filter (fun x => x ∉ u :: V) := by
          simp [List.filter_cons, hau, haV]
        have e2 : (a :: l).filter (fun x => x ∉ V) = a :: l.filter (fun x => x ∉ V) := by
          simp [haV]
        rw [e1, e2, List.length_cons, List.length_cons]
        exact Nat.succ_lt_succ (ih hu2)

/-- The DFS only ever adds to the visited set. -/
theorem dfs_visited_mono (g : DataTransformationGraph) : ∀ fuel : Nat,
    (∀ (u : Uuid) (V S : List Uuid) (r : Bool) (V' : List Uuid),
      DataTransformationGraph.has_cycle_dfs g fuel u V S = (r, V') → V ⊆ V') ∧
    (∀ (ds : List Uuid) (V S : List Uuid) (r : Bool) (V' : List Uuid),
      DataTransformationGraph.dfsFrom g fuel ds V S = (r, V') → V ⊆ V') := by
  intro fuel
  induction fuel with
  | zero =>
    constructor
    · intro u V S r V' heq
      simp only [DataTransformationGraph.has_cycle_dfs, Prod.mk.injEq] at heq
      exact heq.2 ▸ List.Subset.refl V
    · intro ds
      induction ds with
      | nil =>
        intro V S r V' heq
        simp only [DataTransformationGraph.dfsFrom, Prod.mk.injEq] at heq
        exact heq.2 ▸ List.Subset.refl V
      | cons v rest ih =>
        intro V S r V' heq
        by_cases hv : v ∈ V
        · by_cases hs : v ∈ S
          · simp only [DataTransformationGraph.dfsFrom, if_pos hv, if_pos hs,
              Prod.mk.injEq] at heq
            exact heq.2 ▸ List.Subset.refl V
          · rw [DataTransformationGraph.dfsFrom, if_pos hv, if_neg hs] at heq
            exact ih V S r V' heq
        · rw [DataTransformationGraph.dfsFrom, if_neg hv] at heq
          rcases hrec : DataTransformationGraph.has_cycle_dfs g 0 v V S with ⟨r1, V1⟩
          rw [hrec] at heq
          have hVV1 : V ⊆ V1 := by
            simp only [DataTransformationGraph.has_cycle_dfs, Prod.mk.injEq] at hrec
            exact hrec.2 ▸ List.Subset.refl V
          cases r1 with
          | true =>
            simp only [Prod.mk.injEq] at heq
            exact heq.2 ▸ hVV1
          | false =>
            exact List.Subset.trans hVV1 (ih V1 S r V' heq)
  | succ f ihf =>
    have hnode : ∀ (u : Uuid) (V S : List Uuid) (r : Bool) (V' : List Uuid),
        DataTransformationGraph.has_cycle_dfs g (f + 1) u V S = (r, V') → V ⊆ V' := by
      intro u V S r V' heq
      rw [DataTransformationGraph.has_cycle_dfs] at heq
      have := ihf.2 (g.get_dependents u) (u :: V) (u :: S) r V' heq
      exact fun x hx => this (List.mem_cons_of_mem u hx)
    refine ⟨hnode, ?_⟩
    intro ds
    induction ds with
    | nil =>
      intro V S r V' heq
      simp only [DataTransformationGraph.dfsFrom, Prod.mk.injEq] at heq
      exact heq.2 ▸ List.Subset.refl V
    | cons v rest ih =>
      intro V S r V' heq
      by_cases hv : v ∈ V
      · by_cases hs : v ∈ S
        · simp only [DataTransformationGraph.dfsFrom, if_pos hv, if_pos hs,
            Prod.mk.injEq] at heq
          exact heq.2 ▸ List.Subset.refl V
        · rw [DataTransformationGraph.dfsFrom, if_pos hv, if_neg hs] at heq
          exact ih V S r V' heq
      · rw [DataTransformationGraph.dfsFrom, if_neg hv] at heq
        rcases hrec : DataTransformationGraph.has_cycle_dfs g (f + 1) v V S with ⟨r1, V1⟩
        rw [hrec] at heq
        have hVV1 : V ⊆ V1 := hnode v V S r1 V1 hrec
        cases r1 with
        | true =>
          simp only [Prod.mk.injEq] at heq
          exact heq.2 ▸ hVV1
        | false =>
          exact List.Subset.trans hVV1 (ih V1 S r V' heq)

/-- The list half of the false-result specification, assuming the node
half at the same fuel. -/
theorem dfs_false_spec_list (g : DataTransformationGraph) (fuel : Nat)
    (hnode : ∀ (u : Uuid) (V S V' : List Uuid),
      DataTransformationGraph.has_cycle_dfs g fuel u V S = (false, V') →
      S ⊆ V → u ∉ V → DfsClosed g V S → NoCycleFin g V S →
      (V ⊆ V' ∧ u ∈ V' ∧ DfsClosed g V' S ∧ NoCycleFin g V' S)) :
    ∀ (ds : List Uuid) (u : Uuid) (S0 V V' : List Uuid),
      DataTransformationGraph.dfsFrom g fuel ds V (u :: S0) = (false, V') →
      (u :: S0) ⊆ V → DfsClosed g V (u :: S0) → NoCycleFin g V (u :: S0) →
      (∀ v ∈ ds, EdgeStep g u v) →
      (V ⊆ V' ∧ DfsClosed g V' (u :: S0) ∧ NoCycleFin g V' (u :: S0) ∧
       ∀ v ∈ ds, v ∈ V' ∧ v ∉ (u :: S0)) := by
  intro ds
  induction ds with
  | nil =>
    intro u S0 V V' heq hsub hcl hnc _
    simp only [DataTransformationGraph.dfsFrom, Prod.mk.injEq] at heq
    obtain ⟨-, heq⟩ := heq
    subst heq
    exact ⟨List.Subset.refl V, hcl, hnc, by simp⟩
  | cons v rest ih =>
    intro u S0 V V' heq hsub hcl hnc hds
    by_cases hv : v ∈ V
    · by_cases hs : v ∈ u :: S0
      · rw [DataTransformationGraph.dfsFrom, if_pos hv, if_pos hs] at heq
        simp at heq
      · rw [DataTransformationGraph.dfsFrom, if_pos hv, if_neg hs] at heq
        obtain ⟨hm, hcl', hnc', hrest⟩ := ih u S0 V V' heq hsub hcl hnc
          (fun x hx => hds x (List.mem_cons_of_mem _ hx))
        refine ⟨hm, hcl', hnc', ?_⟩
        intro w hw
        rcases List.mem_cons.mp hw with rfl | hw2
        · exact ⟨hm hv, hs⟩
        · exact hrest w hw2
    · rw [DataTransformationGraph.dfsFrom, if_neg hv] at heq
      rcases hrec : DataTransformationGraph.has_cycle_dfs g fuel v V (u :: S0)
        with ⟨r1, V1⟩
      rw [hrec] at heq
      cases r1 with
      | true => simp at heq
      | false =>
        obtain ⟨hVV1, hvV1, hcl1, hnc1⟩ := hnode v V (u :: S0) V1 hrec hsub hv hcl hnc
        have hsub1 : (u :: S0) ⊆ V1 := fun x hx => hVV1 (hsub hx)
        obtain ⟨hm1, hcl', hnc', hrest⟩ := ih u S0 V1 V' heq hsub1 hcl1 hnc1
          (fun x hx => hds x (List.mem_cons_of_mem _ hx))
        refine ⟨List.Subset.trans hVV1 hm1, hcl', hnc', ?_⟩
        intro w hw
        rcases List.mem_cons.mp hw with rfl | hw2
        · refine ⟨hm1 hvV1, fun hmem => hv (hsub hmem)⟩
        · exact hrest w hw2

/-- False-result specification of `has_cycle_dfs`: on a false answer the
invariants are preserved and the start node is finished. -/
theorem dfs_false_spec (g : DataTransformationGraph) : ∀ fuel : Nat,
    ∀ (u : Uuid) (V S V' : List Uuid),
      DataTransformationGraph.has_cycle_dfs g fuel u V S = (false, V') →
      S ⊆ V → u ∉ V → DfsClosed g V S → NoCycleFin g V S →
      (V ⊆ V' ∧ u ∈ V' ∧ DfsClosed g V' S ∧ NoCycleFin g V' S) := by
  intro fuel
  induction fuel with
  | zero =>
    intro u V S V' heq
    simp [DataTransformationGraph.has_cycle_dfs] at heq
  | succ f ihf =>
    intro u V S V' heq hsub huV hcl hnc
    rw [DataTransformationGraph.has_cycle_dfs] at heq
    have hsub1 : (u :: S) ⊆ (u :: V) := by
      intro x hx
      rcases List.mem_cons.mp hx with rfl | hx2
      · exact List.mem_cons_self x V
      · exact List.mem_cons_of_mem u (hsub hx2)
    have hcl1 : DfsClosed g (u :: V) (u :: S) := by
      intro a ha hnaS b hstep
      have hane : a ≠ u := fun h => hnaS (h ▸ List.mem_cons_self u S)
      have haV : a ∈ V := by
        rcases List.mem_cons.mp ha with h | h
        · exact absurd h hane
        · exact h
      have hnaS0 : a ∉ S := fun h => hnaS (List.mem_cons_of_mem u h)
      obtain ⟨hbV, hbS⟩ := hcl a haV hnaS0 b hstep
      refine ⟨List.mem_cons_of_mem u hbV, fun hmem => ?_⟩
      rcases List.mem_cons.mp hmem with rfl | h
      · exact huV hbV
      · exact hbS h
    have hnc1 : NoCycleFin g (u :: V) (u :: S) := by
      intro a ha hnaS
      have hane : a ≠ u := fun h => hnaS (h ▸ List.mem_cons_self u S)
      have haV : a ∈ V := by
        rcases List.mem_cons.mp ha with h | h
        · exact absurd h hane
        · exact h
      exact hnc a haV (fun h => hnaS (List.mem_cons_of_mem u h))
    have hds : ∀ v ∈ g.get_dependents u, EdgeStep g u v :=
      fun v hv => (edgeStep_iff_mem_get_dependents g u v).mpr hv
    obtain ⟨hm, hcl', hnc', hdeps⟩ := dfs_false_spec_list g f ihf
      (g.get_dependents u) u S (u :: V) V' heq hsub1 hcl1 hnc1 hds
    have hVsub : V ⊆ V' := fun x hx => hm (List.mem_cons_of_mem u hx)
    have huV' : u ∈ V' := hm (List.mem_cons_self u V)
    refine ⟨hVsub, huV', ?_, ?_⟩
    · intro a ha hnaS b hstep
      by_cases hau : a = u
      · subst hau
        have hb : b ∈ g.get_dependents a :=
          (edgeStep_iff_mem_get_dependents g a b).mp hstep
        obtain ⟨hbV', hbnus⟩ := hdeps b hb
        exact ⟨hbV', fun h => hbnus (List.mem_cons_of_mem a h)⟩
      · have hnaS1 : a ∉ u :: S := by
          intro hmem
          rcases List.mem_cons.mp hmem with h | h
          · exact hau h
          · exact hnaS h
        obtain ⟨hbV', hbnus⟩ := hcl' a ha hnaS1 b hstep
        exact ⟨hbV', fun h => hbnus (List.mem_cons_of_mem u h)⟩
    · intro a ha hnaS hcyc
      by_cases hau : a = u
      · subst hau
        obtain ⟨b, hab, hba⟩ := Relation.TransGen.head'_iff.mp hcyc
        have hb : b ∈ g.get_dependents a :=
          (edgeStep_iff_mem_get_dependents g a b).mp hab
        obtain ⟨hbV', hbnus⟩ := hdeps b hb
        obtain ⟨-, hnus⟩ := reach_finished hcl' hba hbV' hbnus
        exact hnus (List.mem_cons_self a S)
      · have hnaS1 : a ∉ u :: S := by
          intro hmem
          rcases List.mem_cons.mp hmem with h | h
          · exact hau h
          · exact hnaS h
        exact hnc' a ha hnaS1 hcyc

theorem get_dependents_subset_allIds (g : DataTransformationGraph) (u : Uuid) :
    ∀ v ∈ g.get_dependents u, v ∈ g.allIds := by
  intro v hv
  rcases List.mem_map.mp hv with ⟨e, he, rfl⟩
  have he2 : e ∈ g.edges := (List.mem_filter.mp he).1
  exact List.mem_append.mpr (Or.inr (List.mem_map.mpr ⟨e, he2, rfl⟩))

/-- The list half of the true-result (soundness) specification, assuming
the node half at the same fuel. -/
theorem dfs_sound_list (g : DataTransformationGraph) (fuel : Nat)
    (hnode : ∀ (u : Uuid) (V S V' : List Uuid),
      DataTransformationGraph.has_cycle_dfs g fuel u V S = (true, V') →
      fuel > (g.allIds.filter (fun x => x ∉ V)).length →
      u ∈ g.allIds → u ∉ V →
      List.Chain' (fun a b => EdgeStep g b a) (u :: S) → HasCycle g) :
    ∀ (ds : List Uuid) (u : Uuid) (S0 V V' : List Uuid),
      DataTransformationGraph.dfsFrom g fuel ds V (u :: S0) = (true, V') →
      fuel > (g.allIds.filter (fun x => x ∉ V)).length →
      (∀ v ∈ ds, EdgeStep g u v ∧ v ∈ g.allIds) →
      List.Chain' (fun a b => EdgeStep g b a) (u :: S0) → HasCycle g := by
  intro ds
  induction ds with
  | nil =>
    intro u S0 V V' heq _ _ _
    simp [DataTransformationGraph.dfsFrom] at heq
  | cons v rest ih =>
    intro u S0 V V' heq hfuel hds hchain
    by_cases hv : v ∈ V
    · by_cases hs : v ∈ u :: S0
      · have hedge : EdgeStep g u v := (hds v (List.mem_cons_self v rest)).1
        have hreach : Reaches g v u := stack_reaches_top g S0 u hchain v hs
        exact ⟨v, Relation.TransGen.trans_right hreach (Relation.TransGen.single hedge)⟩
      · rw [DataTransformationGraph.dfsFrom, if_pos hv, if_neg hs] at heq
        exact ih u S0 V V' heq hfuel
          (fun x hx => hds x (List.mem_cons_of_mem _ hx)) hchain
    · rw [DataTransformationGraph.dfsFrom, if_neg hv] at heq
      rcases hrec : DataTransformationGraph.has_cycle_dfs g fuel v V (u :: S0)
        with ⟨r1, V1⟩
      rw [hrec] at heq
      cases r1 with
      | true =>
        have hedge : EdgeStep g u v := (hds v (List.mem_cons_self v rest)).1
        have hvall : v ∈ g.allIds := (hds v (List.mem_cons_self v rest)).2
        have hchain1 : List.Chain' (fun a b => EdgeStep g b a) (v :: u :: S0) :=
          List.chain'_cons.mpr ⟨hedge, hchain⟩
        exact hnode v V (u :: S0) V1 hrec hfuel hvall hv hchain1
      | false =>
        have hVV1 : V ⊆ V1 := (dfs_visited_mono g fuel).1 v V (u :: S0) false V1 hrec
        have hfuel1 : fuel > (g.allIds.filter (fun x => x ∉ V1)).length := by
          have hle : (g.allIds.filter (fun x => x ∉ V1)).length ≤
              (g.allIds.filter (fun x => x ∉ V)).length := by
            simpa using length_filter_le_of_imp g.allIds (fun x => x ∉ V1)
              (fun x => x ∉ V) (fun x hx hxV => hx (hVV1 hxV))
          omega
        exact ih u S0 V1 V' heq hfuel1
          (fun x hx => hds x (List.mem_cons_of_mem _ hx)) hchain

/-- Soundness of `has_cycle_dfs`: with sufficient fuel, a true answer from
a fresh start node whose stack is a chain of edges exhibits a directed
cycle in the edge set. -/
theorem dfs_sound_spec (g : DataTransformationGraph) : ∀ fuel : Nat,
    ∀ (u : Uuid) (V S V' : List Uuid),
      DataTransformationGraph.has_cycle_dfs g fuel u V S = (true, V') →
      fuel > (g.allIds.filter (fun x => x ∉ V)).length →
      u ∈ g.allIds → u ∉ V →
      List.Chain' (fun a b => EdgeStep g b a) (u :: S) → HasCycle g := by
  intro fuel
  induction fuel with
  | zero =>
    intro u V S V' _ hfuel _ _ _
    exact absurd hfuel (Nat.not_lt_zero _)
  | succ f ihf =>
    intro u V S V' heq hfuel hall huV hchain
    rw [DataTransformationGraph.has_cycle_dfs] at heq
    have hlt : (g.allIds.filter (fun x => x ∉ u :: V)).length <
        (g.allIds.filter (fun x => x ∉ V)).length :=
      filter_not_mem_cons_lt g.allIds u V hall huV
    have hfuel1 : f > (g.allIds.filter (fun x => x ∉ u :: V)).length := by omega
    exact dfs_sound_list g f ihf (g.get_dependents u) u S (u :: V) V' heq hfuel1
      (fun v hv => ⟨(edgeStep_iff_mem_get_dependents g u v).mpr hv,
        get_dependents_subset_allIds g u v hv⟩) hchain

theorem nodeKeys_subset_allIds (g : DataTransformationGraph) :
    ∀ k ∈ g.nodeKeys, k ∈ g.allIds := by
  intro k hk
  exact List.mem_append.mpr (Or.inl (List.mem_append.mpr (Or.inl hk)))

/-- A true answer from the outer loop of `is_acyclic` rules out cycles
through any processed or previously visited node. -/
theorem acyclicLoop_true_spec (g : DataTransformationGraph) (fuel : Nat) :
    ∀ (ks V : List Uuid),
      DataTransformationGraph.acyclicLoop g fuel ks V = true →
      DfsClosed g V [] → NoCycleFin g V [] →
      ∀ a, (a ∈ ks ∨ a ∈ V) → ¬ Relation.TransGen (EdgeStep g) a a := by
  intro ks
  induction ks with
  | nil =>
    intro V _ _ hnc a ha
    rcases ha with ha | ha
    · cases ha
    · exact hnc a ha (List.not_mem_nil a)
  | cons k ks ih =>
    intro V htrue hcl hnc a ha
    by_cases hk : k ∈ V
    · rw [DataTransformationGraph.acyclicLoop, if_pos hk] at htrue
      refine ih V htrue hcl hnc a ?_
      rcases ha with ha | ha
      · rcases List.mem_cons.mp ha with rfl | h
        · exact Or.inr hk
        · exact Or.inl h
      · exact Or.inr ha
    · rw [DataTransformationGraph.acyclicLoop, if_neg hk] at htrue
      rcases hrec : DataTransformationGraph.has_cycle_dfs g fuel k V [] with ⟨r1, V1⟩
      rw [hrec] at htrue
      cases r1 with
      | true => simp at htrue
      | false =>
        obtain ⟨hVV1, hkV1, hcl1, hnc1⟩ := dfs_false_spec g fuel k V [] V1 hrec
          (List.nil_subset V) hk hcl hnc
        refine ih V1 htrue hcl1 hnc1 a ?_
        rcases ha with ha | ha
        · rcases List.mem_cons.mp ha with rfl | h
          · exact Or.inr hkV1
          · exact Or.inl h
        · exact Or.inr (hVV1 ha)

/-- A false answer from the outer loop of `is_acyclic` exhibits a cycle,
provided the fuel dominates the unvisited count and the processed keys
come from the graph. -/
theorem acyclicLoop_false_spec (g : DataTransformationGraph) (fuel : Nat) :
    ∀ (ks V : List Uuid),
      DataTransformationGraph.acyclicLoop g fuel ks V = false →
      fuel > (g.allIds.filter (fun x => x ∉ V)).length →
      (∀ k ∈ ks, k ∈ g.allIds) → HasCycle g := by
  intro ks
  induction ks with
  | nil =>
    intro V hfalse _ _
    simp [DataTransformationGraph.acyclicLoop] at hfalse
  | cons k ks ih =>
    intro V hfalse hfuel hks
    by_cases hk : k ∈ V
    · rw [DataTransformationGraph.acyclicLoop, if_pos hk] at hfalse
      exact ih V hfalse hfuel (fun x hx => hks x (List.mem_cons_of_mem _ hx))
    · rw [DataTransformationGraph.acyclicLoop, if_neg hk] at hfalse
      rcases hrec : DataTransformationGraph.has_cycle_dfs g fuel k V [] with ⟨r1, V1⟩
      rw [hrec] at hfalse
      cases r1 with
      | true =>
        exact dfs_sound_spec g fuel k V [] V1 hrec hfuel
          (hks k (List.mem_cons_self k ks)) hk (List.chain'_singleton k)
      | false =>
        have hVV1 : V ⊆ V1 := (dfs_visited_mono g fuel).1 k V [] false V1 hrec
        have hfuel1 : fuel > (g.allIds.filter (fun x => x ∉ V1)).length := by
          have hle : (g.allIds.filter (fun x => x ∉ V1)).length ≤
              (g.allIds.filter (fun x => x ∉ V)).length := by
            simpa using length_filter_le_of_imp g.allIds (fun x => x ∉ V1)
              (fun x => x ∉ V) (fun x hx hxV => hx (hVV1 hxV))
          omega
        exact ih V1 hfalse hfuel1 (fun x hx => hks x (List.mem_cons_of_mem _ hx))

/-- Core correctness of `is_acyclic` for graphs whose edge endpoints are
node-map keys. -/
theorem is_acyclic_iff_of_endpoints (g : DataTransformationGraph)
    (hend : ∀ e ∈ g.edges, e.source ∈ g.nodeKeys ∧ e.target ∈ g.nodeKeys) :
    g.is_acyclic = true ↔ ¬ HasCycle g := by
  constructor
  · intro htrue hcyc
    obtain ⟨a, hc⟩ := hcyc
    obtain ⟨b, hab, -⟩ := Relation.TransGen.head'_iff.mp hc
    obtain ⟨e, he, hes, -⟩ := hab
    have hak : a ∈ g.nodeKeys := hes ▸ (hend e he).1
    rw [DataTransformationGraph.is_acyclic] at htrue
    exact acyclicLoop_true_spec g (g.allIds.length + 1) g.nodeKeys [] htrue
      (by intro x hx; cases hx) (by intro x hx; cases hx) a (Or.inl hak) hc
  · intro hnc
    cases hb : g.is_acyclic with
    | true => rfl
    | false =>
      exfalso
      apply hnc
      rw [DataTransformationGraph.is_acyclic] at hb
      apply acyclicLoop_false_spec g (g.allIds.length + 1) g.nodeKeys [] hb ?_
        (nodeKeys_subset_allIds g)
      have hself : g.allIds.filter (fun x => x ∉ ([] : List Uuid)) = g.allIds := by
        simp
      rw [hself]
      omega

theorem add_node_frame (g : DataTransformationGraph) (n : DtgNode) :
    (g.add_node n).2.edges = g.edges ∧
    (g.add_node n).2.nodes = DataTransformationGraph.insertAssoc g.nodes n.id n := by
  by_cases h : n.inputs.isEmpty <;>
    simp [DataTransformationGraph.add_node, h]

/-- Along a valid construction sequence every edge's endpoints stay
node-map keys. -/
theorem runGraphOps_edges_endpoints (g : DataTransformationGraph)
    (ops : List GraphOp) (hv : ValidGraphOps g ops)
    (h0 : ∀ e ∈ g.edges, e.source ∈ g.nodeKeys ∧ e.target ∈ g.nodeKeys) :
    ∀ e ∈ (runGraphOps g ops).edges,
      e.source ∈ (runGraphOps g ops).nodeKeys ∧
      e.target ∈ (runGraphOps g ops).nodeKeys := by
  induction ops generalizing g with
  | nil => exact h0
  | cons op rest ih =>
    refine ih (applyGraphOp g op) hv.2 ?_
    cases op with
    | addNode n =>
      intro e he
      obtain ⟨hedges, hnodes⟩ := add_node_frame g n
      rw [show applyGraphOp g (GraphOp.addNode n) = (g.add_node n).2 from rfl] at he ⊢
      rw [hedges] at he
      obtain ⟨hsrc, htgt⟩ := h0 e he
      have hkeys : ∀ x ∈ g.nodeKeys, x ∈ (g.add_node n).2.nodeKeys := by
        intro x hx
        show x ∈ ((g.add_node n).2.nodes).map (fun p => p.1)
        rw [hnodes]
        exact DataTransformationGraph.nodeKeys_insertAssoc_superset g.nodes n.id n x
          (Or.inl hx)
      exact ⟨hkeys _ hsrc, hkeys _ htgt⟩
    | addEdge s t d ty =>
      intro e he
      obtain ⟨hs, ht⟩ := hv.1
      have hkeys : (applyGraphOp g (GraphOp.addEdge s t d ty)).nodeKeys = g.nodeKeys := rfl
      rw [hkeys]
      have he2 : e ∈ g.edges ++
          [{ source := s, target := t, data_ref := d, edge_type := ty,
             metadata := [] }] := he
      rcases List.mem_append.mp he2 with hold | hnew
      · exact h0 e hold
      · rw [List.mem_singleton] at hnew
        subst hnew
        exact ⟨hs, ht⟩

/-- C1: for every graph built by `add_node`/`add_edge` calls whose edge
endpoints are previously added node ids, `is_acyclic` returns true exactly
when the (source, target) pairs of the edge set form no directed cycle. -/
theorem is_acyclic_iff_no_cycle (name : String) (gid : Uuid) (t0 : UtcTime)
    (ops : List GraphOp)
    (hvalid : ValidGraphOps (DataTransformationGraph.new name gid t0) ops) :
    (runGraphOps (DataTransformationGraph.new name gid t0) ops).is_acyclic = true ↔
      ¬ HasCycle (runGraphOps (DataTransformationGraph.new name gid t0) ops) := by
  apply is_acyclic_iff_of_endpoints
  exact runGraphOps_edges_endpoints (DataTransformationGraph.new name gid t0) ops hvalid
    (by intro e he; cases he)

/-- Witness for C1: the 3-node cycle 1 -> 2 -> 3 -> 1 built with valid
`add_node`/`add_edge` calls makes `is_acyclic` return false. -/
theorem is_acyclic_iff_no_cycle_witness :
    ValidGraphOps (DataTransformationGraph.new "p" 0 ⟨2024, 1, 1, 0, 0, 0⟩)
      [GraphOp.addNode (DtgNode.new "validate" "a" 1 ⟨2024, 1, 1, 0, 0, 0⟩),
       GraphOp.addNode (DtgNode.new "enrich" "a" 2 ⟨2024, 1, 1, 0, 0, 0⟩),
       GraphOp.addNode (DtgNode.new "analyze" "a" 3 ⟨2024, 1, 1, 0, 0, 0⟩),
       GraphOp.addEdge 1 2 10 "data_flow",
       GraphOp.addEdge 2 3 11 "data_flow",
       GraphOp.addEdge 3 1 12 "data_flow"] ∧
    (runGraphOps (DataTransformationGraph.new "p" 0 ⟨2024, 1, 1, 0, 0, 0⟩)
      [GraphOp.addNode (DtgNode.new "validate" "a" 1 ⟨2024, 1, 1, 0, 0, 0⟩),
       GraphOp.addNode (DtgNode.new "enrich" "a" 2 ⟨2024, 1, 1, 0, 0, 0⟩),
       GraphOp.addNode (DtgNode.new "analyze" "a" 3 ⟨2024, 1, 1, 0, 0, 0⟩),
       GraphOp.addEdge 1 2 10 "data_flow",
       GraphOp.addEdge 2 3 11 "data_flow",
       GraphOp.addEdge 3 1 12 "data_flow"]).is_acyclic = false := by
  refine ⟨by decide, ?_⟩
  have hiff := is_acyclic_iff_no_cycle "p" 0 ⟨2024, 1, 1, 0, 0, 0⟩
    [GraphOp.addNode (DtgNode.new "validate" "a" 1 ⟨2024, 1, 1, 0, 0, 0⟩),
     GraphOp.addNode (DtgNode.new "enrich" "a" 2 ⟨2024, 1, 1, 0, 0, 0⟩),
     GraphOp.addNode (DtgNode.new "analyze" "a" 3 ⟨2024, 1, 1, 0, 0, 0⟩),
     GraphOp.addEdge 1 2 10 "data_flow",
     GraphOp.addEdge 2 3 11 "data_flow",
     GraphOp.addEdge 3 1 12 "data_flow"] (by decide)
  have hedges : (runGraphOps (DataTransformationGraph.new "p" 0 ⟨2024, 1, 1, 0, 0, 0⟩)
      [GraphOp.addNode (DtgNode.new "validate" "a" 1 ⟨2024, 1, 1, 0, 0, 0⟩),
       GraphOp.addNode (DtgNode.new "enrich" "a" 2 ⟨2024, 1, 1, 0, 0, 0⟩),
       GraphOp.addNode (DtgNode.new "analyze" "a" 3 ⟨2024, 1, 1, 0, 0, 0⟩),
       GraphOp.addEdge 1 2 10 "data_flow",
       GraphOp.addEdge 2 3 11 "data_flow",
       GraphOp.addEdge 3 1 12 "data_flow"]).edges =
      [{ source := 1, target := 2, data_ref := 10, edge_type := "data_flow", metadata := [] },
       { source := 2, target := 3, data_ref := 11, edge_type := "data_flow", metadata := [] },
       { source := 3, target := 1, data_ref := 12, edge_type := "data_flow", metadata := [] }] :=
    rfl
  have hcyc : HasCycle (runGraphOps (DataTransformationGraph.new "p" 0 ⟨2024, 1, 1, 0, 0, 0⟩)
      [GraphOp.addNode (DtgNode.new "validate" "a" 1 ⟨2024, 1, 1, 0, 0, 0⟩),
       GraphOp.addNode (DtgNode.new "enrich" "a" 2 ⟨2024, 1, 1, 0, 0, 0⟩),
       GraphOp.addNode (DtgNode.new "analyze" "a" 3 ⟨2024, 1, 1, 0, 0, 0⟩),
       GraphOp.addEdge 1 2 10 "data_flow",
       GraphOp.addEdge 2 3 11 "data_flow",
       GraphOp.addEdge 3 1 12 "data_flow"]) := by
    refine ⟨1, ?_⟩
    have h12 : EdgeStep _ 1 2 :=
      ⟨{ source := 1, target := 2, data_ref := 10, edge_type := "data_flow", metadata := [] },
       by rw [hedges]; simp, rfl, rfl⟩
    have h23 : EdgeStep _ 2 3 :=
      ⟨{ source := 2, target := 3, data_ref := 11, edge_type := "data_flow", metadata := [] },
       by rw [hedges]; simp, rfl, rfl⟩
    have h31 : EdgeStep _ 3 1 :=
      ⟨{ source := 3, target := 1, data_ref := 12, edge_type := "data_flow", metadata := [] },
       by rw [hedges]; simp, rfl, rfl⟩
    exact Relation.TransGen.tail (Relation.TransGen.tail (Relation.TransGen.single h12) h23) h31
  cases hb : (runGraphOps (DataTransformationGraph.new "p" 0 ⟨2024, 1, 1, 0, 0, 0⟩)
      [GraphOp.addNode (DtgNode.new "validate" "a" 1 ⟨2024, 1, 1, 0, 0, 0⟩),
       GraphOp.addNode (DtgNode.new "enrich" "a" 2 ⟨2024, 1, 1, 0, 0, 0⟩),
       GraphOp.addNode (DtgNode.new "analyze" "a" 3 ⟨2024, 1, 1, 0, 0, 0⟩),
       GraphOp.addEdge 1 2 10 "data_flow",
       GraphOp.addEdge 2 3 11 "data_flow",
       GraphOp.addEdge 3 1 12 "data_flow"]).is_acyclic with
  | false => rfl
  | true => exact absurd hcyc (hiff.mp hb)

/-! ## C8: the serde wire format

The serializers are derived by `serde` (`#[derive(Serialize, Deserialize)]`
with `#[serde(rename_all = "snake_case")]` on the status enums), so the
encoding logic itself is not in the repository.  It is modelled from the
spec: every named field round-trips through a JSON value, status enums as
lowercase-with-underscore tags, identifiers as canonical UUID strings,
timestamps as RFC3339 UTC strings, `Option` as null-or-value, maps as
objects. -/

/-- Lowercase hex/decimal digit character (0-9 then a-f). -/
def digitChar (d : Nat) : Char :=
  if d < 10 then Char.ofNat (48 + d) else Char.ofNat (87 + d)

/-- Value of a digit character accepted on the wire. -/
def digitVal (c : Char) : Option Nat :=
  if 48 ≤ c.toNat ∧ c.toNat ≤ 57 then some (c.toNat - 48)
  else if 97 ≤ c.toNat ∧ c.toNat ≤ 102 then some (c.toNat - 87)
  else none

/-- Fixed-width big-endian digit rendering of `n` in base `base`. -/
def toDigitsBE (base : Nat) : Nat → Nat → List Char
  | 0, _ => []
  | k + 1, n => digitChar (n / base ^ k) :: toDigitsBE base k (n % base ^ k)

/-- Consume exactly `k` digits in base `base`, accumulating the value. -/
def readDigitsBE (base : Nat) : Nat → Nat → List Char → Option (Nat × List Char)
  | 0, acc, cs => some (acc, cs)
  | _ + 1, _, [] => none
  | k + 1, acc, c :: cs =>
    match digitVal c with
    | some d => if d < base then readDigitsBE base k (acc * base + d) cs else none
    | none => none

/-- Consume one expected literal character. -/
def expectChar (c : Char) : List Char → Option (List Char)
  | [] => none
  | c' :: rest => if c' = c then some rest else none

theorem expectChar_cons (c : Char) (rest : List Char) :
    expectChar c (c :: rest) = some rest := by
  simp [expectChar]

theorem digitVal_digitChar (d : Nat) (hd : d < 16) :
    digitVal (digitChar d) = some d := by
  interval_cases d <;> decide

theorem readDigitsBE_toDigitsBE (base : Nat) (hbase : base ≤ 16) (hpos : 0 < base) :
    ∀ (k acc n : Nat) (rest : List Char), n < base ^ k →
      readDigitsBE base k acc (toDigitsBE base k n ++ rest) =
        some (acc * base ^ k + n, rest) := by
  intro k
  induction k with
  | zero =>
    intro acc n rest hn
    have hn0 : n = 0 := Nat.lt_one_iff.mp (by simpa using hn)
    subst hn0
    simp [toDigitsBE, readDigitsBE]
  | succ k ih =>
    intro acc n rest hn
    have hdig : n / base ^ k < base := by
      rw [Nat.div_lt_iff_lt_mul (Nat.pos_pow_of_pos k hpos)]
      calc n < base ^ (k + 1) := hn
        _ = base * base ^ k := by rw [pow_succ]; ring
        _ = base * base ^ k := rfl
    have hdig16 : n / base ^ k < 16 := Nat.lt_of_lt_of_le hdig hbase
    rw [toDigitsBE]
    rw [List.cons_append, readDigitsBE]
    rw [digitVal_digitChar _ hdig16]
    simp only [if_pos hdig]
    rw [ih (acc * base + n / base ^ k) (n % base ^ k) rest
      (Nat.mod_lt n (Nat.pos_pow_of_pos k hpos))]
    congr 2
    have hdm : n / base ^ k * base ^ k + n % base ^ k = n := Nat.div_add_mod' n (base ^ k)
    calc (acc * base + n / base ^ k) * base ^ k + n % base ^ k
        = acc * (base ^ k * base) + (n / base ^ k * base ^ k + n % base ^ k) := by ring
      _ = acc * base ^ (k + 1) + n := by rw [hdm, pow_succ]

/-- Modelled from the spec: identifiers "serialize as canonical UUID
strings" — 32 lowercase hex digits grouped 8-4-4-4-12. -/
def uuidCanonical (u : Uuid) : String :=
  String.mk (toDigitsBE 16 8 (u / 16 ^ 24) ++
    '-' :: toDigitsBE 16 4 (u / 16 ^ 20 % 16 ^ 4) ++
    '-' :: toDigitsBE 16 4 (u / 16 ^ 16 % 16 ^ 4) ++
    '-' :: toDigitsBE 16 4 (u / 16 ^ 12 % 16 ^ 4) ++
    '-' :: toDigitsBE 16 12 (u % 16 ^ 12))

/-- Parse a canonical UUID string back to its 128-bit value. -/
def uuidParse (s : String) : Option Uuid := do
  let (a, c1) ← readDigitsBE 16 8 0 s.toList
  let c2 ← expectChar '-' c1
  let (b, c3) ← readDigitsBE 16 4 0 c2
  let c4 ← expectChar '-' c3
  let (c, c5) ← readDigitsBE 16 4 0 c4
  let c6 ← expectChar '-' c5
  let (d, c7) ← readDigitsBE 16 4 0 c6
  let c8 ← expectChar '-' c7
  let (e, c9) ← readDigitsBE 16 12 0 c8
  if c9 = [] then
    some (a * 16 ^ 24 + b * 16 ^ 20 + c * 16 ^ 16 + d * 16 ^ 12 + e)
  else none

theorem uuid_digits_decomp (n : Nat) :
    (0 * 16 ^ 8 + n / 16 ^ 24) * 16 ^ 24 + (0 * 16 ^ 4 + n / 16 ^ 20 % 16 ^ 4) * 16 ^ 20 +
      (0 * 16 ^ 4 + n / 16 ^ 16 % 16 ^ 4) * 16 ^ 16 +
      (0 * 16 ^ 4 + n / 16 ^ 12 % 16 ^ 4) * 16 ^ 12 +
      (0 * 16 ^ 12 + n % 16 ^ 12) = n := by
  have e4 : (16 : Nat) ^ 4 = 65536 := by norm_num
  have e12 : (16 : Nat) ^ 12 = 281474976710656 := by norm_num
  have e16 : (16 : Nat) ^ 16 = 18446744073709551616 := by norm_num
  have e20 : (16 : Nat) ^ 20 = 1208925819614629174706176 := by norm_num
  have e24 : (16 : Nat) ^ 24 = 79228162514264337593543950336 := by norm_num
  rw [e4, e12, e16, e20, e24]
  omega

theorem uuidParse_uuidCanonical (u : Uuid) (hu : u < 2 ^ 128) :
    uuidParse (uuidCanonical u) = some u := by
  have h16 : (16 : Nat) ≤ 16 := le_refl 16
  have hpos : (0 : Nat) < 16 := by norm_num
  have hb1 : u / 16 ^ 24 < 16 ^ 8 := by
    rw [Nat.div_lt_iff_lt_mul (by positivity)]
    calc u < 2 ^ 128 := hu
      _ = 16 ^ 8 * 16 ^ 24 := by norm_num
  have hb2 : u / 16 ^ 20 % 16 ^ 4 < 16 ^ 4 := Nat.mod_lt _ (by positivity)
  have hb3 : u / 16 ^ 16 % 16 ^ 4 < 16 ^ 4 := Nat.mod_lt _ (by positivity)
  have hb4 : u / 16 ^ 12 % 16 ^ 4 < 16 ^ 4 := Nat.mod_lt _ (by positivity)
  have hb5 : u % 16 ^ 12 < 16 ^ 12 := Nat.mod_lt _ (by positivity)
  unfold uuidParse uuidCanonical
  rw [show (String.mk (toDigitsBE 16 8 (u / 16 ^ 24) ++
      '-' :: toDigitsBE 16 4 (u / 16 ^ 20 % 16 ^ 4) ++
      '-' :: toDigitsBE 16 4 (u / 16 ^ 16 % 16 ^ 4) ++
      '-' :: toDigitsBE 16 4 (u / 16 ^ 12 % 16 ^ 4) ++
      '-' :: toDigitsBE 16 12 (u % 16 ^ 12))).toList =
    toDigitsBE 16 8 (u / 16 ^ 24) ++
      ('-' :: toDigitsBE 16 4 (u / 16 ^ 20 % 16 ^ 4) ++
      ('-' :: toDigitsBE 16 4 (u / 16 ^ 16 % 16 ^ 4) ++
      ('-' :: toDigitsBE 16 4 (u / 16 ^ 12 % 16 ^ 4) ++
      ('-' :: (toDigitsBE 16 12 (u % 16 ^ 12) ++ []))))) from by simp]
  rw [readDigitsBE_toDigitsBE 16 h16 hpos 8 0 _ _ hb1]
  simp only [Option.bind_eq_bind, Option.some_bind, List.cons_append, expectChar_cons]
  rw [readDigitsBE_toDigitsBE 16 h16 hpos 4 0 _ _ hb2]
  simp only [Option.some_bind, List.cons_append, expectChar_cons]
  rw [readDigitsBE_toDigitsBE 16 h16 hpos 4 0 _ _ hb3]
  simp only [Option.some_bind, List.cons_append, expectChar_cons]
  rw [readDigitsBE_toDigitsBE 16 h16 hpos 4 0 _ _ hb4]
  simp only [Option.some_bind, List.cons_append, expectChar_cons]
  rw [readDigitsBE_toDigitsBE 16 h16 hpos 12 0 _ _ hb5]
  simp only [Option.some_bind, if_true]
  congr 1
  exact uuid_digits_decomp u

/-- Modelled from the spec: timestamps "serialize as RFC3339 UTC strings"
— `YYYY-MM-DDThh:mm:ssZ` at whole-second precision. -/
def rfc3339 (t : UtcTime) : String :=
  String.mk (toDigitsBE 10 4 t.year ++
    '-' :: toDigitsBE 10 2 t.month ++
    '-' :: toDigitsBE 10 2 t.day ++
    'T' :: toDigitsBE 10 2 t.hour ++
    ':' :: toDigitsBE 10 2 t.minute ++
    ':' :: toDigitsBE 10 2 t.second ++ ['Z'])

/-- Parse an RFC3339 UTC string back to a civil timestamp. -/
def rfc3339Read (s : String) : Option UtcTime := do
  let (y, c1) ← readDigitsBE 10 4 0 s.toList
  let c2 ← expectChar '-' c1
  let (mo, c3) ← readDigitsBE 10 2 0 c2
  let c4 ← expectChar '-' c3
  let (d, c5) ← readDigitsBE 10 2 0 c4
  let c6 ← expectChar 'T' c5
  let (h, c7) ← readDigitsBE 10 2 0 c6
  let c8 ← expectChar ':' c7
  let (mi, c9) ← readDigitsBE 10 2 0 c8
  let c10 ← expectChar ':' c9
  let (sec, c11) ← readDigitsBE 10 2 0 c10
  let c12 ← expectChar 'Z' c11
  if c12 = [] then some ⟨y, mo, d, h, mi, sec⟩ else none

/-- RFC3339-representable civil timestamp. -/
def wfTime (t : UtcTime) : Bool :=
  t.year ≤ 9999 && 1 ≤ t.month && t.month ≤ 12 && 1 ≤ t.day && t.day ≤ 31 &&
    t.hour ≤ 23 && t.minute ≤ 59 && t.second ≤ 59

theorem rfc3339Read_rfc3339 (t : UtcTime) (h : wfTime t = true) :
    rfc3339Read (rfc3339 t) = some t := by
  obtain ⟨y, mo, d, hh, mi, sec⟩ := t
  simp only [wfTime, Bool.and_eq_true, decide_eq_true_eq] at h
  obtain ⟨⟨⟨⟨⟨⟨⟨hy, hmo1⟩, hmo2⟩, hd1⟩, hd2⟩, hhh⟩, hmi⟩, hsec⟩ := h
  have h10 : (10 : Nat) ≤ 16 := by norm_num
  have hpos : (0 : Nat) < 10 := by norm_num
  have p4 : (10 : Nat) ^ 4 = 10000 := by norm_num
  have p2 : (10 : Nat) ^ 2 = 100 := by norm_num
  have hby : y < 10 ^ 4 := by omega
  have hbmo : mo < 10 ^ 2 := by omega
  have hbd : d < 10 ^ 2 := by omega
  have hbh : hh < 10 ^ 2 := by omega
  have hbmi : mi < 10 ^ 2 := by omega
  have hbs : sec < 10 ^ 2 := by omega
  unfold rfc3339Read rfc3339
  rw [show (String.mk (toDigitsBE 10 4 (UtcTime.mk y mo d hh mi sec).year ++
      '-' :: toDigitsBE 10 2 (UtcTime.mk y mo d hh mi sec).month ++
      '-' :: toDigitsBE 10 2 (UtcTime.mk y mo d hh mi sec).day ++
      'T' :: toDigitsBE 10 2 (UtcTime.mk y mo d hh mi sec).hour ++
      ':' :: toDigitsBE 10 2 (UtcTime.mk y mo d hh mi sec).minute ++
      ':' :: toDigitsBE 10 2 (UtcTime.mk y mo d hh mi sec).second ++ ['Z'])).toList =
    toDigitsBE 10 4 y ++
      ('-' :: (toDigitsBE 10 2 mo ++
      ('-' :: (toDigitsBE 10 2 d ++
      ('T' :: (toDigitsBE 10 2 hh ++
      (':' :: (toDigitsBE 10 2 mi ++
      (':' :: (toDigitsBE 10 2 sec ++ ['Z'])))))))))) from by simp]
  rw [readDigitsBE_toDigitsBE 10 h10 hpos 4 0 _ _ hby]
  simp only [Option.bind_eq_bind, Option.some_bind, List.cons_append, expectChar_cons]
  rw [readDigitsBE_toDigitsBE 10 h10 hpos 2 0 _ _ hbmo]
  simp only [Option.some_bind, List.cons_append, expectChar_cons]
  rw [readDigitsBE_toDigitsBE 10 h10 hpos 2 0 _ _ hbd]
  simp only [Option.some_bind, List.cons_append, expectChar_cons]
  rw [readDigitsBE_toDigitsBE 10 h10 hpos 2 0 _ _ hbh]
  simp only [Option.some_bind, List.cons_append, expectChar_cons]
  rw [readDigitsBE_toDigitsBE 10 h10 hpos 2 0 _ _ hbmi]
  simp only [Option.some_bind, List.cons_append, expectChar_cons]
  rw [readDigitsBE_toDigitsBE 10 h10 hpos 2 0 _ _ hbs]
  simp only [Option.some_bind, List.cons_append, expectChar_cons, if_true]
  simp only [Nat.zero_mul, Nat.zero_add]

/-! ### JSON encoding combinators (modelled from the spec's wire
conventions) -/

/-- Identifier fields on the wire: canonical UUID strings. -/
def encodeUuid (u : Uuid) : Json := Json.str (uuidCanonical u)

/-- Timestamp fields on the wire: RFC3339 UTC strings. -/
def encodeTime (t : UtcTime) : Json := Json.str (rfc3339 t)

/-- Unsigned integer fields on the wire: JSON numbers. -/
def encodeNat (n : Nat) : Json := Json.num (n : ℚ)

/-- `Option` fields on the wire: null or the value. -/
def encodeOpt {α : Type} (f : α → Json) : Option α → Json
  | none => Json.null
  | some a => f a

/-- `Vec` fields on the wire: JSON arrays. -/
def encodeList {α : Type} (f : α → Json) (l : List α) : Json :=
  Json.arr (l.map f)

def jStr : Json → Option String
  | Json.str s => some s
  | _ => none

def jNum : Json → Option ℚ
  | Json.num q => some q
  | _ => none

def jArr : Json → Option (List Json)
  | Json.arr xs => some xs
  | _ => none

def jObjFields : Json → Option (List (String × Json))
  | Json.obj fs => some fs
  | _ => none

def jNat (j : Json) : Option Nat := do
  let q ← jNum j
  if q.den = 1 ∧ 0 ≤ q.num then some q.num.toNat else none

def jUuid (j : Json) : Option Uuid := do
  let s ← jStr j
  uuidParse s

def jTime (j : Json) : Option UtcTime := do
  let s ← jStr j
  rfc3339Read s

def jOpt {α : Type} (f : Json → Option α) : Json → Option (Option α)
  | Json.null => some none
  | j => (f j).map some

/-- By-name field lookup, as serde's derived struct deserializer does. -/
def jGet (fs : List (String × Json)) (k : String) : Option Json :=
  (fs.find? (fun p => p.1 = k)).map (fun p => p.2)

/-- Sequence decoding: all elements must decode. -/
def optMapM {α β : Type} (f : α → Option β) : List α → Option (List β)
  | [] => some []
  | a :: l => do
    let b ← f a
    let bs ← optMapM f l
    pure (b :: bs)

def decodeListWith {α : Type} (f : Json → Option α) (j : Json) : Option (List α) := do
  let xs ← jArr j
  optMapM f xs

theorem jNat_encodeNat (n : Nat) : jNat (encodeNat n) = some n := by
  simp [jNat, encodeNat, jNum]

theorem jUuid_encodeUuid (u : Uuid) (hu : u < 2 ^ 128) :
    jUuid (encodeUuid u) = some u := by
  simp [jUuid, encodeUuid, jStr, uuidParse_uuidCanonical u hu]

theorem jTime_encodeTime (t : UtcTime) (ht : wfTime t = true) :
    jTime (encodeTime t) = some t := by
  simp [jTime, encodeTime, jStr, rfc3339Read_rfc3339 t ht]

theorem jOpt_null {α : Type} (f : Json → Option α) : jOpt f Json.null = some none := rfl

theorem jOpt_encodeOpt_str (o : Option String) :
    jOpt jStr (encodeOpt Json.str o) = some o := by
  cases o <;> simp [jOpt, encodeOpt, jStr]

theorem jOpt_encodeOpt_nat (o : Option Nat) :
    jOpt jNat (encodeOpt encodeNat o) = some o := by
  cases o with
  | none => rfl
  | some n => simp [jOpt, encodeOpt, encodeNat, jNat_encodeNat, jNat, jNum]

theorem jOpt_encodeOpt_time (o : Option UtcTime)
    (h : ∀ t, o = some t → wfTime t = true) :
    jOpt jTime (encodeOpt encodeTime o) = some o := by
  cases o with
  | none => rfl
  | some t =>
    have ht := h t rfl
    simp [jOpt, encodeOpt, encodeTime, jTime, jStr, rfc3339Read_rfc3339 t ht]

theorem optMapM_map {α β : Type} (f : β → Option α) (enc : α → β) :
    ∀ l : List α, (∀ x ∈ l, f (enc x) = some x) → optMapM f (l.map enc) = some l
  | [], _ => rfl
  | a :: l, h => by
    have ha := h a (List.mem_cons_self a l)
    have hl := optMapM_map f enc l (fun x hx => h x (List.mem_cons_of_mem a hx))
    simp [optMapM, ha, hl]

theorem decodeListWith_encodeList {α : Type} (f : Json → Option α) (enc : α → Json)
    (l : List α) (h : ∀ x ∈ l, f (enc x) = some x) :
    decodeListWith f (encodeList enc l) = some l := by
  simp [decodeListWith, encodeList, jArr, optMapM_map f enc l h]

/-! ### Wire form of each structure -/

def wfDataRef (r : DtgDataRef) : Bool := r.id < 2 ^ 128

def encodeDataRef (r : DtgDataRef) : Json :=
  Json.obj [("id", encodeUuid r.id),
            ("data_type", Json.str r.data_type),
            ("schema", encodeOpt Json.str r.schema),
            ("size_bytes", encodeOpt encodeNat r.size_bytes),
            ("content_hash", encodeOpt Json.str r.content_hash),
            ("storage_ref", encodeOpt Json.str r.storage_ref)]

def decodeDataRef (j : Json) : Option DtgDataRef := do
  let fs ← jObjFields j
  let i ← jGet fs "id" >>= jUuid
  let dt ← jGet fs "data_type" >>= jStr
  let sch ← jGet fs "schema" >>= jOpt jStr
  let sz ← jGet fs "size_bytes" >>= jOpt jNat
  let ch ← jGet fs "content_hash" >>= jOpt jStr
  let st ← jGet fs "storage_ref" >>= jOpt jStr
  pure ⟨i, dt, sch, sz, ch, st⟩

theorem decodeDataRef_encodeDataRef (r : DtgDataRef) (h : wfDataRef r = true) :
    decodeDataRef (encodeDataRef r) = some r := by
  obtain ⟨i, dt, sch, sz, ch, st⟩ := r
  have hi : i < 2 ^ 128 := by simpa [wfDataRef] using h
  simp [decodeDataRef, encodeDataRef, jObjFields, jGet, jStr, jUuid_encodeUuid i hi,
    jOpt_encodeOpt_str, jOpt_encodeOpt_nat]

/-- Raw `serde_json::Value` fields pass through unchanged. -/
def jAny (j : Json) : Option Json := some j

/-- `DtgNodeStatus` on the wire: `#[serde(rename_all = "snake_case")]`
tags of the variant names in dtg.rs. -/
def encodeNodeStatus : DtgNodeStatus → Json
  | DtgNodeStatus.Pending => Json.str "pending"
  | DtgNodeStatus.Executing => Json.str "executing"
  | DtgNodeStatus.Completed => Json.str "completed"
  | DtgNodeStatus.Failed => Json.str "failed"
  | DtgNodeStatus.Cancelled => Json.str "cancelled"
  | DtgNodeStatus.Waiting => Json.str "waiting"

def decodeNodeStatus (j : Json) : Option DtgNodeStatus := do
  let s ← jStr j
  if s = "pending" then pure DtgNodeStatus.Pending
  else if s = "executing" then pure DtgNodeStatus.Executing
  else if s = "completed" then pure DtgNodeStatus.Completed
  else if s = "failed" then pure DtgNodeStatus.Failed
  else if s = "cancelled" then pure DtgNodeStatus.Cancelled
  else if s = "waiting" then pure DtgNodeStatus.Waiting
  else none

theorem decodeNodeStatus_encodeNodeStatus (st : DtgNodeStatus) :
    decodeNodeStatus (encodeNodeStatus st) = some st := by
  cases st <;> rfl

/-- `DtgGraphStatus` on the wire. -/
def encodeGraphStatus : DtgGraphStatus → Json
  | DtgGraphStatus.Constructing => Json.str "constructing"
  | DtgGraphStatus.Ready => Json.str "ready"
  | DtgGraphStatus.Executing => Json.str "executing"
  | DtgGraphStatus.Completed => Json.str "completed"
  | DtgGraphStatus.PartiallyCompleted => Json.str "partially_completed"
  | DtgGraphStatus.Failed => Json.str "failed"
  | DtgGraphStatus.Cancelled => Json.str "cancelled"

def decodeGraphStatus (j : Json) : Option DtgGraphStatus := do
  let s ← jStr j
  if s = "constructing" then pure DtgGraphStatus.Constructing
  else if s = "ready" then pure DtgGraphStatus.Ready
  else if s = "executing" then pure DtgGraphStatus.Executing
  else if s = "completed" then pure DtgGraphStatus.Completed
  else if s = "partially_completed" then pure DtgGraphStatus.PartiallyCompleted
  else if s = "failed" then pure DtgGraphStatus.Failed
  else if s = "cancelled" then pure DtgGraphStatus.Cancelled
  else none

theorem decodeGraphStatus_encodeGraphStatus (st : DtgGraphStatus) :
    decodeGraphStatus (encodeGraphStatus st) = some st := by
  cases st <;> rfl

def encodeMetrics (m : DtgMetrics) : Json :=
  Json.obj [("cpu_time_ms", encodeNat m.cpu_time_ms),
            ("memory_bytes", encodeNat m.memory_bytes),
            ("network_bytes", encodeNat m.network_bytes),
            ("disk_bytes", encodeNat m.disk_bytes),
            ("retry_count", encodeNat m.retry_count),
            ("quality_score", Json.num m.quality_score),
            ("confidence_score", Json.num m.confidence_score)]

def decodeMetrics (j : Json) : Option DtgMetrics := do
  let fs ← jObjFields j
  let cpu ← jGet fs "cpu_time_ms" >>= jNat
  let mem ← jGet fs "memory_bytes" >>= jNat
  let net ← jGet fs "network_bytes" >>= jNat
  let dsk ← jGet fs "disk_bytes" >>= jNat
  let rty ← jGet fs "retry_count" >>= jNat
  let q ← jGet fs "quality_score" >>= jNum
  let cf ← jGet fs "confidence_score" >>= jNum
  pure ⟨cpu, mem, net, dsk, rty, q, cf⟩

theorem decodeMetrics_encodeMetrics (m : DtgMetrics) :
    decodeMetrics (encodeMetrics m) = some m := by
  obtain ⟨cpu, mem, net, dsk, rty, q, cf⟩ := m
  simp [decodeMetrics, encodeMetrics, jObjFields, jGet, jNat_encodeNat, jNum]

def wfNode (n : DtgNode) : Bool :=
  n.id < 2 ^ 128 && n.inputs.all wfDataRef && n.outputs.all wfDataRef &&
    wfTime n.started_at && n.completed_at.all wfTime

def encodeNode (n : DtgNode) : Json :=
  Json.obj [("id", encodeUuid n.id),
            ("skill_id", Json.str n.skill_id),
            ("agent_id", Json.str n.agent_id),
            ("inputs", encodeList encodeDataRef n.inputs),
            ("outputs", encodeList encodeDataRef n.outputs),
            ("metadata", Json.obj n.metadata),
            ("started_at", encodeTime n.started_at),
            ("completed_at", encodeOpt encodeTime n.completed_at),
            ("status", encodeNodeStatus n.status),
            ("error", encodeOpt Json.str n.error),
            ("metrics", encodeMetrics n.metrics)]

def decodeNode (j : Json) : Option DtgNode := do
  let fs ← jObjFields j
  let i ← jGet fs "id" >>= jUuid
  let sk ← jGet fs "skill_id" >>= jStr
  let ag ← jGet fs "agent_id" >>= jStr
  let ins ← jGet fs "inputs" >>= decodeListWith decodeDataRef
  let outs ← jGet fs "outputs" >>= decodeListWith decodeDataRef
  let md ← jGet fs "metadata" >>= jObjFields
  let sa ← jGet fs "started_at" >>= jTime
  let ca ← jGet fs "completed_at" >>= jOpt jTime
  let st ← jGet fs "status" >>= decodeNodeStatus
  let er ← jGet fs "error" >>= jOpt jStr
  let mt ← jGet fs "metrics" >>= decodeMetrics
  pure ⟨i, sk, ag, ins, outs, md, sa, ca, st, er, mt⟩

set_option maxHeartbeats 1000000 in
theorem decodeNode_encodeNode (n : DtgNode) (h : wfNode n = true) :
    decodeNode (encodeNode n) = some n := by
  obtain ⟨i, sk, ag, ins, outs, md, sa, ca, st, er, mt⟩ := n
  simp only [wfNode, Bool.and_eq_true, decide_eq_true_eq] at h
  obtain ⟨⟨⟨⟨hi, hins⟩, houts⟩, hsa⟩, hca⟩ := h
  have hins2 : decodeListWith decodeDataRef (encodeList encodeDataRef ins) = some ins :=
    decodeListWith_encodeList _ _ _ (fun x hx =>
      decodeDataRef_encodeDataRef x (by
        have := List.all_eq_true.mp hins x hx
        simpa using this))
  have houts2 : decodeListWith decodeDataRef (encodeList encodeDataRef outs) = some outs :=
    decodeListWith_encodeList _ _ _ (fun x hx =>
      decodeDataRef_encodeDataRef x (by
        have := List.all_eq_true.mp houts x hx
        simpa using this))
  have hca2 : jOpt jTime (encodeOpt encodeTime ca) = some ca := by
    refine jOpt_encodeOpt_time ca ?_
    intro t hteq
    subst hteq
    simpa [Option.all] using hca
  simp [decodeNode, encodeNode, jObjFields, jGet, jStr, jUuid_encodeUuid i hi,
    hins2, houts2, jTime_encodeTime sa hsa, hca2,
    decodeNodeStatus_encodeNodeStatus, jOpt_encodeOpt_str,
    decodeMetrics_encodeMetrics]

def wfEdge (e : DtgEdge) : Bool :=
  e.source < 2 ^ 128 && e.target < 2 ^ 128 && e.data_ref < 2 ^ 128

def encodeEdge (e : DtgEdge) : Json :=
  Json.obj [("source", encodeUuid e.source),
            ("target", encodeUuid e.target),
            ("data_ref", encodeUuid e.data_ref),
            ("edge_type", Json.str e.edge_type),
            ("metadata", Json.obj e.metadata)]

def decodeEdge (j : Json) : Option DtgEdge := do
  let fs ← jObjFields j
  let s ← jGet fs "source" >>= jUuid
  let t ← jGet fs "target" >>= jUuid
  let d ← jGet fs "data_ref" >>= jUuid
  let ty ← jGet fs "edge_type" >>= jStr
  let md ← jGet fs "metadata" >>= jObjFields
  pure ⟨s, t, d, ty, md⟩

theorem decodeEdge_encodeEdge (e : DtgEdge) (h : wfEdge e = true) :
    decodeEdge (encodeEdge e) = some e := by
  obtain ⟨s, t, d, ty, md⟩ := e
  simp only [wfEdge, Bool.and_eq_true, decide_eq_true_eq] at h
  obtain ⟨⟨hs, ht⟩, hd⟩ := h
  simp [decodeEdge, encodeEdge, jObjFields, jGet, jStr, jUuid_encodeUuid s hs,
    jUuid_encodeUuid t ht, jUuid_encodeUuid d hd]

def wfGraph (g : DataTransformationGraph) : Bool :=
  g.id < 2 ^ 128 && g.root_nodes.all (fun u => u < 2 ^ 128) &&
    g.nodes.all (fun p => p.1 < 2 ^ 128 && wfNode p.2) &&
    g.edges.all wfEdge && g.graph_inputs.all wfDataRef &&
    g.graph_outputs.all wfDataRef && wfTime g.started_at &&
    g.completed_at.all wfTime

/-- The `nodes` HashMap on the wire: a JSON object whose keys are the
canonical UUID strings of the node ids. -/
def encodeNodesMap (l : List (Uuid × DtgNode)) : Json :=
  Json.obj (l.map (fun p => (uuidCanonical p.1, encodeNode p.2)))

def decodeNodesMap (j : Json) : Option (List (Uuid × DtgNode)) := do
  let fs ← jObjFields j
  optMapM (fun p => do
    let k ← uuidParse p.1
    let v ← decodeNode p.2
    pure ((k, v) : Uuid × DtgNode)) fs

theorem decodeNodesMap_encodeNodesMap (l : List (Uuid × DtgNode))
    (h : l.all (fun p => p.1 < 2 ^ 128 && wfNode p.2) = true) :
    decodeNodesMap (encodeNodesMap l) = some l := by
  have hmap := optMapM_map
    (fun p : String × Json => do
      let k ← uuidParse p.1
      let v ← decodeNode p.2
      pure ((k, v) : Uuid × DtgNode))
    (fun p : Uuid × DtgNode => (uuidCanonical p.1, encodeNode p.2)) l ?_
  · exact hmap
  · intro x hx
    obtain ⟨k, v⟩ := x
    have hkv := List.all_eq_true.mp h _ hx
    simp only [Bool.and_eq_true, decide_eq_true_eq] at hkv
    simp [uuidParse_uuidCanonical k hkv.1, decodeNode_encodeNode v hkv.2]

def encodeGraph (g : DataTransformationGraph) : Json :=
  Json.obj [("id", encodeUuid g.id),
            ("name", Json.str g.name),
            ("root_nodes", encodeList encodeUuid g.root_nodes),
            ("nodes", encodeNodesMap g.nodes),
            ("edges", encodeList encodeEdge g.edges),
            ("graph_inputs", encodeList encodeDataRef g.graph_inputs),
            ("graph_outputs", encodeList encodeDataRef g.graph_outputs),
            ("metadata", Json.obj g.metadata),
            ("started_at", encodeTime g.started_at),
            ("completed_at", encodeOpt encodeTime g.completed_at),
            ("status", encodeGraphStatus g.status),
            ("tags", encodeList Json.str g.tags)]

def decodeGraph (j : Json) : Option DataTransformationGraph := do
  let fs ← jObjFields j
  let i ← jGet fs "id" >>= jUuid
  let nm ← jGet fs "name" >>= jStr
  let rn ← jGet fs "root_nodes" >>= decodeListWith jUuid
  let nd ← jGet fs "nodes" >>= decodeNodesMap
  let ed ← jGet fs "edges" >>= decodeListWith decodeEdge
  let gi ← jGet fs "graph_inputs" >>= decodeListWith decodeDataRef
  let go ← jGet fs "graph_outputs" >>= decodeListWith decodeDataRef
  let md ← jGet fs "metadata" >>= jObjFields
  let sa ← jGet fs "started_at" >>= jTime
  let ca ← jGet fs "completed_at" >>= jOpt jTime
  let st ← jGet fs "status" >>= decodeGraphStatus
  let tg ← jGet fs "tags" >>= decodeListWith jStr
  pure ⟨i, nm, rn, nd, ed, gi, go, md, sa, ca, st, tg⟩

theorem someBind {α β : Type} (a : α) (f : α → Option β) :
    (some a : Option α) >>= f = f a := rfl

set_option maxHeartbeats 1600000 in
theorem decodeGraph_encodeGraph (g : DataTransformationGraph)
    (h : wfGraph g = true) : decodeGraph (encodeGraph g) = some g := by
  simp only [wfGraph, Bool.and_eq_true, decide_eq_true_eq] at h
  obtain ⟨⟨⟨⟨⟨⟨⟨hi, hrn⟩, hnd⟩, hed⟩, hgi⟩, hgo⟩, hsa⟩, hca⟩ := h
  have hrn2 : decodeListWith jUuid (encodeList encodeUuid g.root_nodes) =
      some g.root_nodes :=
    decodeListWith_encodeList _ _ _ (fun x hx =>
      jUuid_encodeUuid x (by
        have := List.all_eq_true.mp hrn x hx
        simpa using this))
  have hnd2 : decodeNodesMap (encodeNodesMap g.nodes) = some g.nodes :=
    decodeNodesMap_encodeNodesMap g.nodes hnd
  have hed2 : decodeListWith decodeEdge (encodeList encodeEdge g.edges) = some g.edges :=
    decodeListWith_encodeList _ _ _ (fun x hx =>
      decodeEdge_encodeEdge x (List.all_eq_true.mp hed x hx))
  have hgi2 : decodeListWith decodeDataRef (encodeList encodeDataRef g.graph_inputs) =
      some g.graph_inputs :=
    decodeListWith_encodeList _ _ _ (fun x hx =>
      decodeDataRef_encodeDataRef x (List.all_eq_true.mp hgi x hx))
  have hgo2 : decodeListWith decodeDataRef (encodeList encodeDataRef g.graph_outputs) =
      some g.graph_outputs :=
    decodeListWith_encodeList _ _ _ (fun x hx =>
      decodeDataRef_encodeDataRef x (List.all_eq_true.mp hgo x hx))
  have hca2 : jOpt jTime (encodeOpt encodeTime g.completed_at) = some g.completed_at := by
    refine jOpt_encodeOpt_time g.completed_at ?_
    intro t hteq
    rw [hteq] at hca
    simpa [Option.all] using hca
  have htg2 : decodeListWith jStr (encodeList Json.str g.tags) = some g.tags :=
    decodeListWith_encodeList _ _ _ (fun x _ => rfl)
  rw [encodeGraph, decodeGraph]
  rw [show jObjFields (Json.obj [("id", encodeUuid g.id),
      ("name", Json.str g.name),
      ("root_nodes", encodeList encodeUuid g.root_nodes),
      ("nodes", encodeNodesMap g.nodes),
      ("edges", encodeList encodeEdge g.edges),
      ("graph_inputs", encodeList encodeDataRef g.graph_inputs),
      ("graph_outputs", encodeList encodeDataRef g.graph_outputs),
      ("metadata", Json.obj g.metadata),
      ("started_at", encodeTime g.started_at),
      ("completed_at", encodeOpt encodeTime g.completed_at),
      ("status", encodeGraphStatus g.status),
      ("tags", encodeList Json.str g.tags)]) = some [("id", encodeUuid g.id),
      ("name", Json.str g.name),
      ("root_nodes", encodeList encodeUuid g.root_nodes),
      ("nodes", encodeNodesMap g.nodes),
      ("edges", encodeList encodeEdge g.edges),
      ("graph_inputs", encodeList encodeDataRef g.graph_inputs),
      ("graph_outputs", encodeList encodeDataRef g.graph_outputs),
      ("metadata", Json.obj g.metadata),
      ("started_at", encodeTime g.started_at),
      ("completed_at", encodeOpt encodeTime g.completed_at),
      ("status", encodeGraphStatus g.status),
      ("tags", encodeList Json.str g.tags)] from rfl]
  simp only [someBind]
  have q0 : jGet [("id", encodeUuid g.id),
      ("name", Json.str g.name),
      ("root_nodes", encodeList encodeUuid g.root_nodes),
      ("nodes", encodeNodesMap g.nodes),
      ("edges", encodeList encodeEdge g.edges),
      ("graph_inputs", encodeList encodeDataRef g.graph_inputs),
      ("graph_outputs", encodeList encodeDataRef g.graph_outputs),
      ("metadata", Json.obj g.metadata),
      ("started_at", encodeTime g.started_at),
      ("completed_at", encodeOpt encodeTime g.completed_at),
      ("status", encodeGraphStatus g.status),
      ("tags", encodeList Json.str g.tags)] "id" = some (encodeUuid g.id) := rfl
  have q1 : jGet [("id", encodeUuid g.id),
      ("name", Json.str g.name),
      ("root_nodes", encodeList encodeUuid g.root_nodes),
      ("nodes", encodeNodesMap g.nodes),
      ("edges", encodeList encodeEdge g.edges),
      ("graph_inputs", encodeList encodeDataRef g.graph_inputs),
      ("graph_outputs", encodeList encodeDataRef g.graph_outputs),
      ("metadata", Json.obj g.metadata),
      ("started_at", encodeTime g.started_at),
      ("completed_at", encodeOpt encodeTime g.completed_at),
      ("status", encodeGraphStatus g.status),
      ("tags", encodeList Json.str g.tags)] "name" = some (Json.str g.name) := rfl
  have q2 : jGet [("id", encodeUuid g.id),
      ("name", Json.str g.name),
      ("root_nodes", encodeList encodeUuid g.root_nodes),
      ("nodes", encodeNodesMap g.nodes),
      ("edges", encodeList encodeEdge g.edges),
      ("graph_inputs", encodeList encodeDataRef g.graph_inputs),
      ("graph_outputs", encodeList encodeDataRef g.graph_outputs),
      ("metadata", Json.obj g.metadata),
      ("started_at", encodeTime g.started_at),
      ("completed_at", encodeOpt encodeTime g.completed_at),
      ("status", encodeGraphStatus g.status),
      ("tags", encodeList Json.str g.tags)] "root_nodes" = some (encodeList encodeUuid g.root_nodes) := rfl
  have q3 : jGet [("id", encodeUuid g.id),
      ("name", Json.str g.name),
      ("root_nodes", encodeList encodeUuid g.root_nodes),
      ("nodes", encodeNodesMap g.nodes),
      ("edges", encodeList encodeEdge g.edges),
      ("graph_inputs", encodeList encodeDataRef g.graph_inputs),
      ("graph_outputs", encodeList encodeDataRef g.graph_outputs),
      ("metadata", Json.obj g.metadata),
      ("started_at", encodeTime g.started_at),
      ("completed_at", encodeOpt encodeTime g.completed_at),
      ("status", encodeGraphStatus g.status),
      ("tags", encodeList Json.str g.tags)] "nodes" = some (encodeNodesMap g.nodes) := rfl
  have q4 : jGet [("id", encodeUuid g.id),
      ("name", Json.str g.name),
      ("root_nodes", encodeList encodeUuid g.root_nodes),
      ("nodes", encodeNodesMap g.nodes),
      ("edges", encodeList encodeEdge g.edges),
      ("graph_inputs", encodeList encodeDataRef g.graph_inputs),
      ("graph_outputs", encodeList encodeDataRef g.graph_outputs),
      ("metadata", Json.obj g.metadata),
      ("started_at", encodeTime g.started_at),
      ("completed_at", encodeOpt encodeTime g.completed_at),
      ("status", encodeGraphStatus g.status),
      ("tags", encodeList Json.str g.tags)] "edges" = some (encodeList encodeEdge g.edges) := rfl
  have q5 : jGet [("id", encodeUuid g.id),
      ("name", Json.str g.name),
      ("root_nodes", encodeList encodeUuid g.root_nodes),
      ("nodes", encodeNodesMap g.nodes),
      ("edges", encodeList encodeEdge g.edges),
      ("graph_inputs", encodeList encodeDataRef g.graph_inputs),
      ("graph_outputs", encodeList encodeDataRef g.graph_outputs),
      ("metadata", Json.obj g.metadata),
      ("started_at", encodeTime g.started_at),
      ("completed_at", encodeOpt encodeTime g.completed_at),
      ("status", encodeGraphStatus g.status),
      ("tags", encodeList Json.str g.tags)] "graph_inputs" = some (encodeList encodeDataRef g.graph_inputs) := rfl
  have q6 : jGet [("id", encodeUuid g.id),
      ("name", Json.str g.name),
      ("root_nodes", encodeList encodeUuid g.root_nodes),
      ("nodes", encodeNodesMap g.nodes),
      ("edges", encodeList encodeEdge g.edges),
      ("graph_inputs", encodeList encodeDataRef g.graph_inputs),
      ("graph_outputs", encodeList encodeDataRef g.graph_outputs),
      ("metadata", Json.obj g.metadata),
      ("started_at", encodeTime g.started_at),
      ("completed_at", encodeOpt encodeTime g.completed_at),
      ("status", encodeGraphStatus g.status),
      ("tags", encodeList Json.str g.tags)] "graph_outputs" = some (encodeList encodeDataRef g.graph_outputs) := rfl
  have q7 : jGet [("id", encodeUuid g.id),
      ("name", Json.str g.name),
      ("root_nodes", encodeList encodeUuid g.root_nodes),
      ("nodes", encodeNodesMap g.nodes),
      ("edges", encodeList encodeEdge g.edges),
      ("graph_inputs", encodeList encodeDataRef g.graph_inputs),
      ("graph_outputs", encodeList encodeDataRef g.graph_outputs),
      ("metadata", Json.obj g.metadata),
      ("started_at", encodeTime g.started_at),
      ("completed_at", encodeOpt encodeTime g.completed_at),
      ("status", encodeGraphStatus g.status),
      ("tags", encodeList Json.str g.tags)] "metadata" = some (Json.obj g.metadata) := rfl
  have q8 : jGet [("id", encodeUuid g.id),
      ("name", Json.str g.name),
      ("root_nodes", encodeList encodeUuid g.root_nodes),
      ("nodes", encodeNodesMap g.nodes),
      ("edges", encodeList encodeEdge g.edges),
      ("graph_inputs", encodeList encodeDataRef g.graph_inputs),
      ("graph_outputs", encodeList encodeDataRef g.graph_outputs),
      ("metadata", Json.obj g.metadata),
      ("started_at", encodeTime g.started_at),
      ("completed_at", encodeOpt encodeTime g.completed_at),
      ("status", encodeGraphStatus g.status),
      ("tags", encodeList Json.str g.tags)] "started_at" = some (encodeTime g.started_at) := rfl
  have q9 : jGet [("id", encodeUuid g.id),
      ("name", Json.str g.name),
      ("root_nodes", encodeList encodeUuid g.root_nodes),
      ("nodes", encodeNodesMap g.nodes),
      ("edges", encodeList encodeEdge g.edges),
      ("graph_inputs", encodeList encodeDataRef g.graph_inputs),
      ("graph_outputs", encodeList encodeDataRef g.graph_outputs),
      ("metadata", Json.obj g.metadata),
      ("started_at", encodeTime g.started_at),
      ("completed_at", encodeOpt encodeTime g.completed_at),
      ("status", encodeGraphStatus g.status),
      ("tags", encodeList Json.str g.tags)] "completed_at" = some (encodeOpt encodeTime g.completed_at) := rfl
  have q10 : jGet [("id", encodeUuid g.id),
      ("name", Json.str g.name),
      ("root_nodes", encodeList encodeUuid g.root_nodes),
      ("nodes", encodeNodesMap g.nodes),
      ("edges", encodeList encodeEdge g.edges),
      ("graph_inputs", encodeList encodeDataRef g.graph_inputs),
      ("graph_outputs", encodeList encodeDataRef g.graph_outputs),
      ("metadata", Json.obj g.metadata),
      ("started_at", encodeTime g.started_at),
      ("completed_at", encodeOpt encodeTime g.completed_at),
      ("status", encodeGraphStatus g.status),
      ("tags", encodeList Json.str g.tags)] "status" = some (encodeGraphStatus g.status) := rfl
  have q11 : jGet [("id", encodeUuid g.id),
      ("name", Json.str g.name),
      ("root_nodes", encodeList encodeUuid g.root_nodes),
      ("nodes", encodeNodesMap g.nodes),
      ("edges", encodeList encodeEdge g.edges),
      ("graph_inputs", encodeList encodeDataRef g.graph_inputs),
      ("graph_outputs", encodeList encodeDataRef g.graph_outputs),
      ("metadata", Json.obj g.metadata),
      ("started_at", encodeTime g.started_at),
      ("completed_at", encodeOpt encodeTime g.completed_at),
      ("status", encodeGraphStatus g.status),
      ("tags", encodeList Json.str g.tags)] "tags" = some (encodeList Json.str g.tags) := rfl
  rw [q0, q1, q2, q3, q4, q5, q6, q7, q8, q9, q10, q11]
  simp only [someBind, jStr, jObjFields, jUuid_encodeUuid g.id hi, hrn2, hnd2, hed2,
    hgi2, hgo2, jTime_encodeTime g.started_at hsa, hca2,
    decodeGraphStatus_encodeGraphStatus, htg2, Option.pure_def]


def wfSignature (s : CryptographicSignature) : Bool := wfTime s.signed_at

def encodeSignature (s : CryptographicSignature) : Json :=
  Json.obj [("signer", Json.str s.signer),
            ("algorithm", Json.str s.algorithm),
            ("signature", Json.str s.signature),
            ("public_key", encodeOpt Json.str s.public_key),
            ("signed_at", encodeTime s.signed_at)]

def decodeSignature (j : Json) : Option CryptographicSignature := do
  let fs ← jObjFields j
  let sg ← jGet fs "signer" >>= jStr
  let al ← jGet fs "algorithm" >>= jStr
  let sv ← jGet fs "signature" >>= jStr
  let pk ← jGet fs "public_key" >>= jOpt jStr
  let at2 ← jGet fs "signed_at" >>= jTime
  pure ⟨sg, al, sv, pk, at2⟩

theorem decodeSignature_encodeSignature (s : CryptographicSignature)
    (h : wfSignature s = true) : decodeSignature (encodeSignature s) = some s := by
  obtain ⟨sg, al, sv, pk, at2⟩ := s
  have ht : wfTime at2 = true := h
  simp [decodeSignature, encodeSignature, jObjFields, jGet, jStr,
    jOpt_encodeOpt_str, jTime_encodeTime at2 ht]

def wfSchemaVersion (v : SchemaVersion) : Bool := wfTime v.created_at

def encodeSchemaVersion (v : SchemaVersion) : Json :=
  Json.obj [("version", Json.str v.version),
            ("schema", v.schema),
            ("created_at", encodeTime v.created_at),
            ("created_by", Json.str v.created_by)]

def decodeSchemaVersion (j : Json) : Option SchemaVersion := do
  let fs ← jObjFields j
  let vs ← jGet fs "version" >>= jStr
  let sc ← jGet fs "schema" >>= jAny
  let ca ← jGet fs "created_at" >>= jTime
  let cb ← jGet fs "created_by" >>= jStr
  pure ⟨vs, sc, ca, cb⟩

theorem decodeSchemaVersion_encodeSchemaVersion (v : SchemaVersion)
    (h : wfSchemaVersion v = true) :
    decodeSchemaVersion (encodeSchemaVersion v) = some v := by
  obtain ⟨vs, sc, ca, cb⟩ := v
  have ht : wfTime ca = true := h
  simp [decodeSchemaVersion, encodeSchemaVersion, jObjFields, jGet, jStr, jAny,
    jTime_encodeTime ca ht]

def wfQualityMetric (q : QualityMetric) : Bool := wfTime q.measured_at

def encodeQualityMetric (q : QualityMetric) : Json :=
  Json.obj [("metric", Json.str q.metric),
            ("value", Json.num q.value),
            ("measured_at", encodeTime q.measured_at),
            ("measurement_method", Json.str q.measurement_method)]

def decodeQualityMetric (j : Json) : Option QualityMetric := do
  let fs ← jObjFields j
  let me ← jGet fs "metric" >>= jStr
  let vl ← jGet fs "value" >>= jNum
  let ma ← jGet fs "measured_at" >>= jTime
  let mm ← jGet fs "measurement_method" >>= jStr
  pure ⟨me, vl, ma, mm⟩

theorem decodeQualityMetric_encodeQualityMetric (q : QualityMetric)
    (h : wfQualityMetric q = true) :
    decodeQualityMetric (encodeQualityMetric q) = some q := by
  obtain ⟨me, vl, ma, mm⟩ := q
  have ht : wfTime ma = true := h
  simp [decodeQualityMetric, encodeQualityMetric, jObjFields, jGet, jStr, jNum,
    jTime_encodeTime ma ht]

def encodeGpuUsage (u : GpuUsage) : Json :=
  Json.obj [("utilization_percent", Json.num u.utilization_percent),
            ("memory_bytes", encodeNat u.memory_bytes),
            ("temperature_c", Json.num u.temperature_c),
            ("power_watts", Json.num u.power_watts)]

def decodeGpuUsage (j : Json) : Option GpuUsage := do
  let fs ← jObjFields j
  let ut ← jGet fs "utilization_percent" >>= jNum
  let mb ← jGet fs "memory_bytes" >>= jNat
  let tc ← jGet fs "temperature_c" >>= jNum
  let pw ← jGet fs "power_watts" >>= jNum
  pure ⟨ut, mb, tc, pw⟩

theorem decodeGpuUsage_encodeGpuUsage (u : GpuUsage) :
    decodeGpuUsage (encodeGpuUsage u) = some u := by
  obtain ⟨ut, mb, tc, pw⟩ := u
  simp [decodeGpuUsage, encodeGpuUsage, jObjFields, jGet, jNum, jNat_encodeNat]

theorem jOpt_encodeOpt_gpu (o : Option GpuUsage) :
    jOpt decodeGpuUsage (encodeOpt encodeGpuUsage o) = some o := by
  cases o with
  | none => rfl
  | some u =>
    have hu := decodeGpuUsage_encodeGpuUsage u
    rw [encodeOpt]
    rw [show jOpt decodeGpuUsage (encodeGpuUsage u) =
      (decodeGpuUsage (encodeGpuUsage u)).map some from rfl]
    rw [hu]
    rfl

def encodeResourceUsage (r : ResourceUsage) : Json :=
  Json.obj [("cpu_percent", Json.num r.cpu_percent),
            ("memory_bytes", encodeNat r.memory_bytes),
            ("network_bytes", encodeNat r.network_bytes),
            ("disk_bytes", encodeNat r.disk_bytes),
            ("gpu_usage", encodeOpt encodeGpuUsage r.gpu_usage)]

def decodeResourceUsage (j : Json) : Option ResourceUsage := do
  let fs ← jObjFields j
  let cp ← jGet fs "cpu_percent" >>= jNum
  let mb ← jGet fs "memory_bytes" >>= jNat
  let nb ← jGet fs "network_bytes" >>= jNat
  let db ← jGet fs "disk_bytes" >>= jNat
  let gu ← jGet fs "gpu_usage" >>= jOpt decodeGpuUsage
  pure ⟨cp, mb, nb, db, gu⟩

theorem decodeResourceUsage_encodeResourceUsage (r : ResourceUsage) :
    decodeResourceUsage (encodeResourceUsage r) = some r := by
  obtain ⟨cp, mb, nb, db, gu⟩ := r
  simp [decodeResourceUsage, encodeResourceUsage, jObjFields, jGet, jNum,
    jNat_encodeNat, jOpt_encodeOpt_gpu]

def encodeAgentMetrics (m : AgentMetrics) : Json :=
  Json.obj [("total_execution_time_ms", encodeNat m.total_execution_time_ms),
            ("avg_execution_time_ms", encodeNat m.avg_execution_time_ms),
            ("total_nodes_executed", encodeNat m.total_nodes_executed),
            ("successful_nodes", encodeNat m.successful_nodes),
            ("failed_nodes", encodeNat m.failed_nodes),
            ("resource_efficiency", Json.num m.resource_efficiency),
            ("quality_score", Json.num m.quality_score)]

def decodeAgentMetrics (j : Json) : Option AgentMetrics := do
  let fs ← jObjFields j
  let tt ← jGet fs "total_execution_time_ms" >>= jNat
  let av ← jGet fs "avg_execution_time_ms" >>= jNat
  let tn ← jGet fs "total_nodes_executed" >>= jNat
  let sn ← jGet fs "successful_nodes" >>= jNat
  let fn ← jGet fs "failed_nodes" >>= jNat
  let re ← jGet fs "resource_efficiency" >>= jNum
  let qs ← jGet fs "quality_score" >>= jNum
  pure ⟨tt, av, tn, sn, fn, re, qs⟩

theorem decodeAgentMetrics_encodeAgentMetrics (m : AgentMetrics) :
    decodeAgentMetrics (encodeAgentMetrics m) = some m := by
  obtain ⟨tt, av, tn, sn, fn, re, qs⟩ := m
  simp [decodeAgentMetrics, encodeAgentMetrics, jObjFields, jGet, jNum,
    jNat_encodeNat]

def wfRecord (r : TransformationRecord) : Bool :=
  r.node_id < 2 ^ 128 && r.inputs.all wfDataRef && r.outputs.all wfDataRef &&
    wfTime r.timestamp

def encodeTransformationRecord (r : TransformationRecord) : Json :=
  Json.obj [("node_id", encodeUuid r.node_id),
            ("agent_id", Json.str r.agent_id),
            ("skill_id", Json.str r.skill_id),
            ("inputs", encodeList encodeDataRef r.inputs),
            ("outputs", encodeList encodeDataRef r.outputs),
            ("parameters", Json.obj r.parameters),
            ("timestamp", encodeTime r.timestamp),
            ("transformation_hash", Json.str r.transformation_hash)]

def decodeTransformationRecord (j : Json) : Option TransformationRecord := do
  let fs ← jObjFields j
  let ni ← jGet fs "node_id" >>= jUuid
  let ai ← jGet fs "agent_id" >>= jStr
  let si ← jGet fs "skill_id" >>= jStr
  let ins ← jGet fs "inputs" >>= decodeListWith decodeDataRef
  let outs ← jGet fs "outputs" >>= decodeListWith decodeDataRef
  let pm ← jGet fs "parameters" >>= jObjFields
  let ts ← jGet fs "timestamp" >>= jTime
  let th ← jGet fs "transformation_hash" >>= jStr
  pure ⟨ni, ai, si, ins, outs, pm, ts, th⟩

theorem decodeTransformationRecord_encodeTransformationRecord (r : TransformationRecord)
    (h : wfRecord r = true) : decodeTransformationRecord (encodeTransformationRecord r) = some r := by
  simp only [wfRecord, Bool.and_eq_true, decide_eq_true_eq] at h
  obtain ⟨⟨⟨hni, hins⟩, houts⟩, hts⟩ := h
  have hins2 : decodeListWith decodeDataRef (encodeList encodeDataRef r.inputs) =
      some r.inputs :=
    decodeListWith_encodeList _ _ _ (fun x hx =>
      decodeDataRef_encodeDataRef x (List.all_eq_true.mp hins x hx))
  have houts2 : decodeListWith decodeDataRef (encodeList encodeDataRef r.outputs) =
      some r.outputs :=
    decodeListWith_encodeList _ _ _ (fun x hx =>
      decodeDataRef_encodeDataRef x (List.all_eq_true.mp houts x hx))
  rw [encodeTransformationRecord, decodeTransformationRecord]
  rw [show jObjFields (Json.obj [("node_id", encodeUuid r.node_id),
      ("agent_id", Json.str r.agent_id),
      ("skill_id", Json.str r.skill_id),
      ("inputs", encodeList encodeDataRef r.inputs),
      ("outputs", encodeList encodeDataRef r.outputs),
      ("parameters", Json.obj r.parameters),
      ("timestamp", encodeTime r.timestamp),
      ("transformation_hash", Json.str r.transformation_hash)]) = some [("node_id", encodeUuid r.node_id),
      ("agent_id", Json.str r.agent_id),
      ("skill_id", Json.str r.skill_id),
      ("inputs", encodeList encodeDataRef r.inputs),
      ("outputs", encodeList encodeDataRef r.outputs),
      ("parameters", Json.obj r.parameters),
      ("timestamp", encodeTime r.timestamp),
      ("transformation_hash", Json.str r.transformation_hash)] from rfl]
  simp only [someBind]
  have q0 : jGet [("node_id", encodeUuid r.node_id),
      ("agent_id", Json.str r.agent_id),
      ("skill_id", Json.str r.skill_id),
      ("inputs", encodeList encodeDataRef r.inputs),
      ("outputs", encodeList encodeDataRef r.outputs),
      ("parameters", Json.obj r.parameters),
      ("timestamp", encodeTime r.timestamp),
      ("transformation_hash", Json.str r.transformation_hash)] "node_id" = some (encodeUuid r.node_id) := rfl
  have q1 : jGet [("node_id", encodeUuid r.node_id),
      ("agent_id", Json.str r.agent_id),
      ("skill_id", Json.str r.skill_id),
      ("inputs", encodeList encodeDataRef r.inputs),
      ("outputs", encodeList encodeDataRef r.outputs),
      ("parameters", Json.obj r.parameters),
      ("timestamp", encodeTime r.timestamp),
      ("transformation_hash", Json.str r.transformation_hash)] "agent_id" = some (Json.str r.agent_id) := rfl
  have q2 : jGet [("node_id", encodeUuid r.node_id),
      ("agent_id", Json.str r.agent_id),
      ("skill_id", Json.str r.skill_id),
      ("inputs", encodeList encodeDataRef r.inputs),
      ("outputs", encodeList encodeDataRef r.outputs),
      ("parameters", Json.obj r.parameters),
      ("timestamp", encodeTime r.timestamp),
      ("transformation_hash", Json.str r.transformation_hash)] "skill_id" = some (Json.str r.skill_id) := rfl
  have q3 : jGet [("node_id", encodeUuid r.node_id),
      ("agent_id", Json.str r.agent_id),
      ("skill_id", Json.str r.skill_id),
      ("inputs", encodeList encodeDataRef r.inputs),
      ("outputs", encodeList encodeDataRef r.outputs),
      ("parameters", Json.obj r.parameters),
      ("timestamp", encodeTime r.timestamp),
      ("transformation_hash", Json.str r.transformation_hash)] "inputs" = some (encodeList encodeDataRef r.inputs) := rfl
  have q4 : jGet [("node_id", encodeUuid r.node_id),
      ("agent_id", Json.str r.agent_id),
      ("skill_id", Json.str r.skill_id),
      ("inputs", encodeList encodeDataRef r.inputs),
      ("outputs", encodeList encodeDataRef r.outputs),
      ("parameters", Json.obj r.parameters),
      ("timestamp", encodeTime r.timestamp),
      ("transformation_hash", Json.str r.transformation_hash)] "outputs" = some (encodeList encodeDataRef r.outputs) := rfl
  have q5 : jGet [("node_id", encodeUuid r.node_id),
      ("agent_id", Json.str r.agent_id),
      ("skill_id", Json.str r.skill_id),
      ("inputs", encodeList encodeDataRef r.inputs),
      ("outputs", encodeList encodeDataRef r.outputs),
      ("parameters", Json.obj r.parameters),
      ("timestamp", encodeTime r.timestamp),
      ("transformation_hash", Json.str r.transformation_hash)] "parameters" = some (Json.obj r.parameters) := rfl
  have q6 : jGet [("node_id", encodeUuid r.node_id),
      ("agent_id", Json.str r.agent_id),
      ("skill_id", Json.str r.skill_id),
      ("inputs", encodeList encodeDataRef r.inputs),
      ("outputs", encodeList encodeDataRef r.outputs),
      ("parameters", Json.obj r.parameters),
      ("timestamp", encodeTime r.timestamp),
      ("transformation_hash", Json.str r.transformation_hash)] "timestamp" = some (encodeTime r.timestamp) := rfl
  have q7 : jGet [("node_id", encodeUuid r.node_id),
      ("agent_id", Json.str r.agent_id),
      ("skill_id", Json.str r.skill_id),
      ("inputs", encodeList encodeDataRef r.inputs),
      ("outputs", encodeList encodeDataRef r.outputs),
      ("parameters", Json.obj r.parameters),
      ("timestamp", encodeTime r.timestamp),
      ("transformation_hash", Json.str r.transformation_hash)] "transformation_hash" = some (Json.str r.transformation_hash) := rfl
  rw [q0, q1, q2, q3, q4, q5, q6, q7]
  simp only [someBind, jStr, jObjFields, Option.pure_def, jUuid_encodeUuid r.node_id hni, hins2, houts2, jTime_encodeTime r.timestamp hts]

def wfLineage (l : DataLineage) : Bool :=
  l.data_ref_id < 2 ^ 128 && l.source_nodes.all (fun u => u < 2 ^ 128) &&
    l.destination_nodes.all (fun u => u < 2 ^ 128) &&
    l.schema_history.all wfSchemaVersion && l.quality_history.all wfQualityMetric

def encodeDataLineage (l : DataLineage) : Json :=
  Json.obj [("data_ref_id", encodeUuid l.data_ref_id),
            ("source_nodes", encodeList encodeUuid l.source_nodes),
            ("destination_nodes", encodeList encodeUuid l.destination_nodes),
            ("data_type", Json.str l.data_type),
            ("schema_history", encodeList encodeSchemaVersion l.schema_history),
            ("quality_history", encodeList encodeQualityMetric l.quality_history)]

def decodeDataLineage (j : Json) : Option DataLineage := do
  let fs ← jObjFields j
  let di ← jGet fs "data_ref_id" >>= jUuid
  let sn ← jGet fs "source_nodes" >>= decodeListWith jUuid
  let dn ← jGet fs "destination_nodes" >>= decodeListWith jUuid
  let dt ← jGet fs "data_type" >>= jStr
  let sh ← jGet fs "schema_history" >>= decodeListWith decodeSchemaVersion
  let qh ← jGet fs "quality_history" >>= decodeListWith decodeQualityMetric
  pure ⟨di, sn, dn, dt, sh, qh⟩

theorem decodeDataLineage_encodeDataLineage (l : DataLineage)
    (h : wfLineage l = true) : decodeDataLineage (encodeDataLineage l) = some l := by
  simp only [wfLineage, Bool.and_eq_true, decide_eq_true_eq] at h
  obtain ⟨⟨⟨⟨hdi, hsn⟩, hdn⟩, hsh⟩, hqh⟩ := h
  have hsn2 : decodeListWith jUuid (encodeList encodeUuid l.source_nodes) =
      some l.source_nodes :=
    decodeListWith_encodeList _ _ _ (fun x hx =>
      jUuid_encodeUuid x (by
        have := List.all_eq_true.mp hsn x hx
        simpa using this))
  have hdn2 : decodeListWith jUuid (encodeList encodeUuid l.destination_nodes) =
      some l.destination_nodes :=
    decodeListWith_encodeList _ _ _ (fun x hx =>
      jUuid_encodeUuid x (by
        have := List.all_eq_true.mp hdn x hx
        simpa using this))
  have hsh2 : decodeListWith decodeSchemaVersion
      (encodeList encodeSchemaVersion l.schema_history) = some l.schema_history :=
    decodeListWith_encodeList _ _ _ (fun x hx =>
      decodeSchemaVersion_encodeSchemaVersion x (List.all_eq_true.mp hsh x hx))
  have hqh2 : decodeListWith decodeQualityMetric
      (encodeList encodeQualityMetric l.quality_history) = some l.quality_history :=
    decodeListWith_encodeList _ _ _ (fun x hx =>
      decodeQualityMetric_encodeQualityMetric x (List.all_eq_true.mp hqh x hx))
  rw [encodeDataLineage, decodeDataLineage]
  rw [show jObjFields (Json.obj [("data_ref_id", encodeUuid l.data_ref_id),
      ("source_nodes", encodeList encodeUuid l.source_nodes),
      ("destination_nodes", encodeList encodeUuid l.destination_nodes),
      ("data_type", Json.str l.data_type),
      ("schema_history", encodeList encodeSchemaVersion l.schema_history),
      ("quality_history", encodeList encodeQualityMetric l.quality_history)]) = some [("data_ref_id", encodeUuid l.data_ref_id),
      ("source_nodes", encodeList encodeUuid l.source_nodes),
      ("destination_nodes", encodeList encodeUuid l.destination_nodes),
      ("data_type", Json.str l.data_type),
      ("schema_history", encodeList encodeSchemaVersion l.schema_history),
      ("quality_history", encodeList encodeQualityMetric l.quality_history)] from rfl]
  simp only [someBind]
  have q0 : jGet [("data_ref_id", encodeUuid l.data_ref_id),
      ("source_nodes", encodeList encodeUuid l.source_nodes),
      ("destination_nodes", encodeList encodeUuid l.destination_nodes),
      ("data_type", Json.str l.data_type),
      ("schema_history", encodeList encodeSchemaVersion l.schema_history),
      ("quality_history", encodeList encodeQualityMetric l.quality_history)] "data_ref_id" = some (encodeUuid l.data_ref_id) := rfl
  have q1 : jGet [("data_ref_id", encodeUuid l.data_ref_id),
      ("source_nodes", encodeList encodeUuid l.source_nodes),
      ("destination_nodes", encodeList encodeUuid l.destination_nodes),
      ("data_type", Json.str l.data_type),
      ("schema_history", encodeList encodeSchemaVersion l.schema_history),
      ("quality_history", encodeList encodeQualityMetric l.quality_history)] "source_nodes" = some (encodeList encodeUuid l.source_nodes) := rfl
  have q2 : jGet [("data_ref_id", encodeUuid l.data_ref_id),
      ("source_nodes", encodeList encodeUuid l.source_nodes),
      ("destination_nodes", encodeList encodeUuid l.destination_nodes),
      ("data_type", Json.str l.data_type),
      ("schema_history", encodeList encodeSchemaVersion l.schema_history),
      ("quality_history", encodeList encodeQualityMetric l.quality_history)] "destination_nodes" = some (encodeList encodeUuid l.destination_nodes) := rfl
  have q3 : jGet [("data_ref_id", encodeUuid l.data_ref_id),
      ("source_nodes", encodeList encodeUuid l.source_nodes),
      ("destination_nodes", encodeList encodeUuid l.destination_nodes),
      ("data_type", Json.str l.data_type),
      ("schema_history", encodeList encodeSchemaVersion l.schema_history),
      ("quality_history", encodeList encodeQualityMetric l.quality_history)] "data_type" = some (Json.str l.data_type) := rfl
  have q4 : jGet [("data_ref_id", encodeUuid l.data_ref_id),
      ("source_nodes", encodeList encodeUuid l.source_nodes),
      ("destination_nodes", encodeList encodeUuid l.destination_nodes),
      ("data_type", Json.str l.data_type),
      ("schema_history", encodeList encodeSchemaVersion l.schema_history),
      ("quality_history", encodeList encodeQualityMetric l.quality_history)] "schema_history" = some (encodeList encodeSchemaVersion l.schema_history) := rfl
  have q5 : jGet [("data_ref_id", encodeUuid l.data_ref_id),
      ("source_nodes", encodeList encodeUuid l.source_nodes),
      ("destination_nodes", encodeList encodeUuid l.destination_nodes),
      ("data_type", Json.str l.data_type),
      ("schema_history", encodeList encodeSchemaVersion l.schema_history),
      ("quality_history", encodeList encodeQualityMetric l.quality_history)] "quality_history" = some (encodeList encodeQualityMetric l.quality_history) := rfl
  rw [q0, q1, q2, q3, q4, q5]
  simp only [someBind, jStr, jObjFields, Option.pure_def, jUuid_encodeUuid l.data_ref_id hdi, hsn2, hdn2, hsh2, hqh2]

def wfAgentRecord (a : AgentExecutionRecord) : Bool :=
  a.executed_nodes.all (fun u => u < 2 ^ 128)

def encodeAgentExecutionRecord (a : AgentExecutionRecord) : Json :=
  Json.obj [("agent_id", Json.str a.agent_id),
            ("executed_nodes", encodeList encodeUuid a.executed_nodes),
            ("metrics", encodeAgentMetrics a.metrics),
            ("resource_usage", encodeResourceUsage a.resource_usage),
            ("error_rate", Json.num a.error_rate),
            ("success_rate", Json.num a.success_rate)]

def decodeAgentExecutionRecord (j : Json) : Option AgentExecutionRecord := do
  let fs ← jObjFields j
  let ai ← jGet fs "agent_id" >>= jStr
  let en ← jGet fs "executed_nodes" >>= decodeListWith jUuid
  let mt ← jGet fs "metrics" >>= decodeAgentMetrics
  let ru ← jGet fs "resource_usage" >>= decodeResourceUsage
  let er ← jGet fs "error_rate" >>= jNum
  let sr ← jGet fs "success_rate" >>= jNum
  pure ⟨ai, en, mt, ru, er, sr⟩

theorem decodeAgentExecutionRecord_encodeAgentExecutionRecord (a : AgentExecutionRecord)
    (h : wfAgentRecord a = true) : decodeAgentExecutionRecord (encodeAgentExecutionRecord a) = some a := by
  simp only [wfAgentRecord] at h
  have hen := h
  have hen2 : decodeListWith jUuid (encodeList encodeUuid a.executed_nodes) =
      some a.executed_nodes :=
    decodeListWith_encodeList _ _ _ (fun x hx =>
      jUuid_encodeUuid x (by
        have := List.all_eq_true.mp hen x hx
        simpa using this))
  rw [encodeAgentExecutionRecord, decodeAgentExecutionRecord]
  rw [show jObjFields (Json.obj [("agent_id", Json.str a.agent_id),
      ("executed_nodes", encodeList encodeUuid a.executed_nodes),
      ("metrics", encodeAgentMetrics a.metrics),
      ("resource_usage", encodeResourceUsage a.resource_usage),
      ("error_rate", Json.num a.error_rate),
      ("success_rate", Json.num a.success_rate)]) = some [("agent_id", Json.str a.agent_id),
      ("executed_nodes", encodeList encodeUuid a.executed_nodes),
      ("metrics", encodeAgentMetrics a.metrics),
      ("resource_usage", encodeResourceUsage a.resource_usage),
      ("error_rate", Json.num a.error_rate),
      ("success_rate", Json.num a.success_rate)] from rfl]
  simp only [someBind]
  have q0 : jGet [("agent_id", Json.str a.agent_id),
      ("executed_nodes", encodeList encodeUuid a.executed_nodes),
      ("metrics", encodeAgentMetrics a.metrics),
      ("resource_usage", encodeResourceUsage a.resource_usage),
      ("error_rate", Json.num a.error_rate),
      ("success_rate", Json.num a.success_rate)] "agent_id" = some (Json.str a.agent_id) := rfl
  have q1 : jGet [("agent_id", Json.str a.agent_id),
      ("executed_nodes", encodeList encodeUuid a.executed_nodes),
      ("metrics", encodeAgentMetrics a.metrics),
      ("resource_usage", encodeResourceUsage a.resource_usage),
      ("error_rate", Json.num a.error_rate),
      ("success_rate", Json.num a.success_rate)] "executed_nodes" = some (encodeList encodeUuid a.executed_nodes) := rfl
  have q2 : jGet [("agent_id", Json.str a.agent_id),
      ("executed_nodes", encodeList encodeUuid a.executed_nodes),
      ("metrics", encodeAgentMetrics a.metrics),
      ("resource_usage", encodeResourceUsage a.resource_usage),
      ("error_rate", Json.num a.error_rate),
      ("success_rate", Json.num a.success_rate)] "metrics" = some (encodeAgentMetrics a.metrics) := rfl
  have q3 : jGet [("agent_id", Json.str a.agent_id),
      ("executed_nodes", encodeList encodeUuid a.executed_nodes),
      ("metrics", encodeAgentMetrics a.metrics),
      ("resource_usage", encodeResourceUsage a.resource_usage),
      ("error_rate", Json.num a.error_rate),
      ("success_rate", Json.num a.success_rate)] "resource_usage" = some (encodeResourceUsage a.resource_usage) := rfl
  have q4 : jGet [("agent_id", Json.str a.agent_id),
      ("executed_nodes", encodeList encodeUuid a.executed_nodes),
      ("metrics", encodeAgentMetrics a.metrics),
      ("resource_usage", encodeResourceUsage a.resource_usage),
      ("error_rate", Json.num a.error_rate),
      ("success_rate", Json.num a.success_rate)] "error_rate" = some (Json.num a.error_rate) := rfl
  have q5 : jGet [("agent_id", Json.str a.agent_id),
      ("executed_nodes", encodeList encodeUuid a.executed_nodes),
      ("metrics", encodeAgentMetrics a.metrics),
      ("resource_usage", encodeResourceUsage a.resource_usage),
      ("error_rate", Json.num a.error_rate),
      ("success_rate", Json.num a.success_rate)] "success_rate" = some (Json.num a.success_rate) := rfl
  rw [q0, q1, q2, q3, q4, q5]
  simp only [someBind, jStr, jObjFields, Option.pure_def, hen2, decodeAgentMetrics_encodeAgentMetrics, decodeResourceUsage_encodeResourceUsage, jNum]

def wfProvenance (p : DtgProvenance) : Bool :=
  p.dtg_id < 2 ^ 128 && p.transformation_chain.all wfRecord &&
    p.input_lineage.all wfLineage && p.output_lineage.all wfLineage &&
    p.agent_records.all wfAgentRecord && p.signatures.all wfSignature &&
    wfTime p.recorded_at

def encodeDtgProvenance (p : DtgProvenance) : Json :=
  Json.obj [("dtg_id", encodeUuid p.dtg_id),
            ("transformation_chain", encodeList encodeTransformationRecord p.transformation_chain),
            ("input_lineage", encodeList encodeDataLineage p.input_lineage),
            ("output_lineage", encodeList encodeDataLineage p.output_lineage),
            ("agent_records", encodeList encodeAgentExecutionRecord p.agent_records),
            ("signatures", encodeList encodeSignature p.signatures),
            ("recorded_at", encodeTime p.recorded_at)]

def decodeDtgProvenance (j : Json) : Option DtgProvenance := do
  let fs ← jObjFields j
  let di ← jGet fs "dtg_id" >>= jUuid
  let tc ← jGet fs "transformation_chain" >>= decodeListWith decodeTransformationRecord
  let il ← jGet fs "input_lineage" >>= decodeListWith decodeDataLineage
  let ol ← jGet fs "output_lineage" >>= decodeListWith decodeDataLineage
  let ar ← jGet fs "agent_records" >>= decodeListWith decodeAgentExecutionRecord
  let sg ← jGet fs "signatures" >>= decodeListWith decodeSignature
  let ra ← jGet fs "recorded_at" >>= jTime
  pure ⟨di, tc, il, ol, ar, sg, ra⟩

theorem decodeDtgProvenance_encodeDtgProvenance (p : DtgProvenance)
    (h : wfProvenance p = true) : decodeDtgProvenance (encodeDtgProvenance p) = some p := by
  simp only [wfProvenance, Bool.and_eq_true, decide_eq_true_eq] at h
  obtain ⟨⟨⟨⟨⟨⟨hdi, htc⟩, hil⟩, hol⟩, har⟩, hsg⟩, hra⟩ := h
  have htc2 : decodeListWith decodeTransformationRecord
      (encodeList encodeTransformationRecord p.transformation_chain) =
      some p.transformation_chain :=
    decodeListWith_encodeList _ _ _ (fun x hx =>
      decodeTransformationRecord_encodeTransformationRecord x
        (List.all_eq_true.mp htc x hx))
  have hil2 : decodeListWith decodeDataLineage
      (encodeList encodeDataLineage p.input_lineage) = some p.input_lineage :=
    decodeListWith_encodeList _ _ _ (fun x hx =>
      decodeDataLineage_encodeDataLineage x (List.all_eq_true.mp hil x hx))
  have hol2 : decodeListWith decodeDataLineage
      (encodeList encodeDataLineage p.output_lineage) = some p.output_lineage :=
    decodeListWith_encodeList _ _ _ (fun x hx =>
      decodeDataLineage_encodeDataLineage x (List.all_eq_true.mp hol x hx))
  have har2 : decodeListWith decodeAgentExecutionRecord
      (encodeList encodeAgentExecutionRecord p.agent_records) = some p.agent_records :=
    decodeListWith_encodeList _ _ _ (fun x hx =>
      decodeAgentExecutionRecord_encodeAgentExecutionRecord x
        (List.all_eq_true.mp har x hx))
  have hsg2 : decodeListWith decodeSignature
      (encodeList encodeSignature p.signatures) = some p.signatures :=
    decodeListWith_encodeList _ _ _ (fun x hx =>
      decodeSignature_encodeSignature x (List.all_eq_true.mp hsg x hx))
  rw [encodeDtgProvenance, decodeDtgProvenance]
  rw [show jObjFields (Json.obj [("dtg_id", encodeUuid p.dtg_id),
      ("transformation_chain", encodeList encodeTransformationRecord p.transformation_chain),
      ("input_lineage", encodeList encodeDataLineage p.input_lineage),
      ("output_lineage", encodeList encodeDataLineage p.output_lineage),
      ("agent_records", encodeList encodeAgentExecutionRecord p.agent_records),
      ("signatures", encodeList encodeSignature p.signatures),
      ("recorded_at", encodeTime p.recorded_at)]) = some [("dtg_id", encodeUuid p.dtg_id),
      ("transformation_chain", encodeList encodeTransformationRecord p.transformation_chain),
      ("input_lineage", encodeList encodeDataLineage p.input_lineage),
      ("output_lineage", encodeList encodeDataLineage p.output_lineage),
      ("agent_records", encodeList encodeAgentExecutionRecord p.agent_records),
      ("signatures", encodeList encodeSignature p.signatures),
      ("recorded_at", encodeTime p.recorded_at)] from rfl]
  simp only [someBind]
  have q0 : jGet [("dtg_id", encodeUuid p.dtg_id),
      ("transformation_chain", encodeList encodeTransformationRecord p.transformation_chain),
      ("input_lineage", encodeList encodeDataLineage p.input_lineage),
      ("output_lineage", encodeList encodeDataLineage p.output_lineage),
      ("agent_records", encodeList encodeAgentExecutionRecord p.agent_records),
      ("signatures", encodeList encodeSignature p.signatures),
      ("recorded_at", encodeTime p.recorded_at)] "dtg_id" = some (encodeUuid p.dtg_id) := rfl
  have q1 : jGet [("dtg_id", encodeUuid p.dtg_id),
      ("transformation_chain", encodeList encodeTransformationRecord p.transformation_chain),
      ("input_lineage", encodeList encodeDataLineage p.input_lineage),
      ("output_lineage", encodeList encodeDataLineage p.output_lineage),
      ("agent_records", encodeList encodeAgentExecutionRecord p.agent_records),
      ("signatures", encodeList encodeSignature p.signatures),
      ("recorded_at", encodeTime p.recorded_at)] "transformation_chain" = some (encodeList encodeTransformationRecord p.transformation_chain) := rfl
  have q2 : jGet [("dtg_id", encodeUuid p.dtg_id),
      ("transformation_chain", encodeList encodeTransformationRecord p.transformation_chain),
      ("input_lineage", encodeList encodeDataLineage p.input_lineage),
      ("output_lineage", encodeList encodeDataLineage p.output_lineage),
      ("agent_records", encodeList encodeAgentExecutionRecord p.agent_records),
      ("signatures", encodeList encodeSignature p.signatures),
      ("recorded_at", encodeTime p.recorded_at)] "input_lineage" = some (encodeList encodeDataLineage p.input_lineage) := rfl
  have q3 : jGet [("dtg_id", encodeUuid p.dtg_id),
      ("transformation_chain", encodeList encodeTransformationRecord p.transformation_chain),
      ("input_lineage", encodeList encodeDataLineage p.input_lineage),
      ("output_lineage", encodeList encodeDataLineage p.output_lineage),
      ("agent_records", encodeList encodeAgentExecutionRecord p.agent_records),
      ("signatures", encodeList encodeSignature p.signatures),
      ("recorded_at", encodeTime p.recorded_at)] "output_lineage" = some (encodeList encodeDataLineage p.output_lineage) := rfl
  have q4 : jGet [("dtg_id", encodeUuid p.dtg_id),
      ("transformation_chain", encodeList encodeTransformationRecord p.transformation_chain),
      ("input_lineage", encodeList encodeDataLineage p.input_lineage),
      ("output_lineage", encodeList encodeDataLineage p.output_lineage),
      ("agent_records", encodeList encodeAgentExecutionRecord p.agent_records),
      ("signatures", encodeList encodeSignature p.signatures),
      ("recorded_at", encodeTime p.recorded_at)] "agent_records" = some (encodeList encodeAgentExecutionRecord p.agent_records) := rfl
  have q5 : jGet [("dtg_id", encodeUuid p.dtg_id),
      ("transformation_chain", encodeList encodeTransformationRecord p.transformation_chain),
      ("input_lineage", encodeList encodeDataLineage p.input_lineage),
      ("output_lineage", encodeList encodeDataLineage p.output_lineage),
      ("agent_records", encodeList encodeAgentExecutionRecord p.agent_records),
      ("signatures", encodeList encodeSignature p.signatures),
      ("recorded_at", encodeTime p.recorded_at)] "signatures" = some (encodeList encodeSignature p.signatures) := rfl
  have q6 : jGet [("dtg_id", encodeUuid p.dtg_id),
      ("transformation_chain", encodeList encodeTransformationRecord p.transformation_chain),
      ("input_lineage", encodeList encodeDataLineage p.input_lineage),
      ("output_lineage", encodeList encodeDataLineage p.output_lineage),
      ("agent_records", encodeList encodeAgentExecutionRecord p.agent_records),
      ("signatures", encodeList encodeSignature p.signatures),
      ("recorded_at", encodeTime p.recorded_at)] "recorded_at" = some (encodeTime p.recorded_at) := rfl
  rw [q0, q1, q2, q3, q4, q5, q6]
  simp only [someBind, jStr, jObjFields, Option.pure_def, jUuid_encodeUuid p.dtg_id hdi, htc2, hil2, hol2, har2, hsg2,
    jTime_encodeTime p.recorded_at hra]

/-- C8: serializing a graph (with its nodes and edges) or a provenance
ledger to the modelled serde wire form and deserializing yields the
original value, with status enums as lowercase-with-underscore tags,
identifiers as canonical UUID strings and timestamps as RFC3339 UTC
strings. -/
theorem serialization_round_trip (g : DataTransformationGraph) (p : DtgProvenance)
    (hg : wfGraph g = true) (hp : wfProvenance p = true) :
    decodeGraph (encodeGraph g) = some g ∧
    decodeDtgProvenance (encodeDtgProvenance p) = some p ∧
    encodeGraphStatus DtgGraphStatus.Completed = Json.str "completed" ∧
    encodeGraphStatus DtgGraphStatus.PartiallyCompleted =
      Json.str "partially_completed" :=
  ⟨decodeGraph_encodeGraph g hg, decodeDtgProvenance_encodeDtgProvenance p hp,
   rfl, rfl⟩

/-- Witness for C8: a concrete graph with 3 nodes and 2 edges and a ledger
with 1 signature round-trip exactly. -/
theorem serialization_round_trip_witness :
    wfGraph (runGraphOps (DataTransformationGraph.new "pipeline" 99 ⟨2024, 1, 1, 0, 0, 0⟩)
      [GraphOp.addNode (DtgNode.new "validate" "agent-1" 1 ⟨2024, 1, 1, 0, 0, 0⟩),
       GraphOp.addNode (DtgNode.new "enrich" "agent-1" 2 ⟨2024, 1, 1, 0, 0, 0⟩),
       GraphOp.addNode (DtgNode.new "analyze" "agent-2" 3 ⟨2024, 1, 1, 0, 0, 0⟩),
       GraphOp.addEdge 1 2 10 "data_flow",
       GraphOp.addEdge 2 3 11 "data_flow"]) = true ∧
    wfProvenance ((DtgProvenance.new 99 ⟨2024, 1, 1, 0, 0, 0⟩).add_signature "agent-1" "ed25519"
      "3045022100ab" ⟨2024, 1, 1, 0, 0, 5⟩) = true ∧
    (decodeGraph (encodeGraph (runGraphOps (DataTransformationGraph.new "pipeline" 99 ⟨2024, 1, 1, 0, 0, 0⟩)
      [GraphOp.addNode (DtgNode.new "validate" "agent-1" 1 ⟨2024, 1, 1, 0, 0, 0⟩),
       GraphOp.addNode (DtgNode.new "enrich" "agent-1" 2 ⟨2024, 1, 1, 0, 0, 0⟩),
       GraphOp.addNode (DtgNode.new "analyze" "agent-2" 3 ⟨2024, 1, 1, 0, 0, 0⟩),
       GraphOp.addEdge 1 2 10 "data_flow",
       GraphOp.addEdge 2 3 11 "data_flow"])) = some (runGraphOps (DataTransformationGraph.new "pipeline" 99 ⟨2024, 1, 1, 0, 0, 0⟩)
      [GraphOp.addNode (DtgNode.new "validate" "agent-1" 1 ⟨2024, 1, 1, 0, 0, 0⟩),
       GraphOp.addNode (DtgNode.new "enrich" "agent-1" 2 ⟨2024, 1, 1, 0, 0, 0⟩),
       GraphOp.addNode (DtgNode.new "analyze" "agent-2" 3 ⟨2024, 1, 1, 0, 0, 0⟩),
       GraphOp.addEdge 1 2 10 "data_flow",
       GraphOp.addEdge 2 3 11 "data_flow"]) ∧
     decodeDtgProvenance (encodeDtgProvenance ((DtgProvenance.new 99 ⟨2024, 1, 1, 0, 0, 0⟩).add_signature "agent-1" "ed25519"
      "3045022100ab" ⟨2024, 1, 1, 0, 0, 5⟩)) = some ((DtgProvenance.new 99 ⟨2024, 1, 1, 0, 0, 0⟩).add_signature "agent-1" "ed25519"
      "3045022100ab" ⟨2024, 1, 1, 0, 0, 5⟩) ∧
     encodeGraphStatus DtgGraphStatus.Completed = Json.str "completed" ∧
     encodeGraphStatus DtgGraphStatus.PartiallyCompleted =
       Json.str "partially_completed") :=
  ⟨by decide, by decide,
   serialization_round_trip (runGraphOps (DataTransformationGraph.new "pipeline" 99 ⟨2024, 1, 1, 0, 0, 0⟩)
      [GraphOp.addNode (DtgNode.new "validate" "agent-1" 1 ⟨2024, 1, 1, 0, 0, 0⟩),
       GraphOp.addNode (DtgNode.new "enrich" "agent-1" 2 ⟨2024, 1, 1, 0, 0, 0⟩),
       GraphOp.addNode (DtgNode.new "analyze" "agent-2" 3 ⟨2024, 1, 1, 0, 0, 0⟩),
       GraphOp.addEdge 1 2 10 "data_flow",
       GraphOp.addEdge 2 3 11 "data_flow"]) ((DtgProvenance.new 99 ⟨2024, 1, 1, 0, 0, 0⟩).add_signature "agent-1" "ed25519"
      "3045022100ab" ⟨2024, 1, 1, 0, 0, 5⟩) (by decide) (by decide)⟩
